import Mathlib

/-!
# Recipe persistence (`models/recipe.js`)

A shallow embedding of the recipe model: the JavaScript values the functions
receive, the four tables they write, the statements they send to storage and
the functions themselves, followed by the properties checked against them.

Modelling conventions.

* A JavaScript value is a `JsVal`.  Numbers are decimal literals
  (`mantissa / 10 ^ exponent`) or one of the three non-finite values; the code
  never computes with them, it only asks `typeof` and `Number.isInteger`.
* `x.toString()` is fixed by the model for `undefined`, `null`, booleans and
  strings.  For numbers, arrays and objects the text is produced by the
  JavaScript engine and is taken as a parameter (`render`).
* Storage is four lists of rows.  `WHERE a = @p` is exact equality of the key
  text.  A column holds the value that was bound to its parameter.
* Every `query(...)` is one statement.  Storage may refuse a statement for a
  reason that is not modelled (a constraint, a conversion, a lost connection):
  `World.faults` is the list of verdicts for the coming statements, `true`
  meaning refusal; after the list is used up every statement is accepted.
* Handlers of the shape `catch (error) { console.error(...); throw error; }`
  re-raise what they caught and are left out; `console.log` is left out.
-/

set_option autoImplicit false

namespace Recipe

/-! ## JavaScript values -/

/-- A JavaScript number as the code can observe it. -/
inductive JsNum
  | dec (mantissa : Int) (exponent : Nat)
  | nan
  | posInf
  | negInf

/-- A JavaScript value (JSON shaped). -/
inductive JsVal
  | undefined
  | null
  | bool (b : Bool)
  | num (n : JsNum)
  | str (s : String)
  | arr (items : List JsVal)
  | obj (props : List (String × JsVal))

/-- The results of `typeof` that JSON shaped values can have. -/
inductive JsType
  | undefined
  | object
  | boolean
  | number
  | string
  deriving DecidableEq, Repr

/-- The `typeof` operator (`typeof null` is `object`). -/
def typeof : JsVal → JsType
  | .undefined => .undefined
  | .null => .object
  | .bool _ => .boolean
  | .num _ => .number
  | .str _ => .string
  | .arr _ => .object
  | .obj _ => .object

/-- The test `Array.isArray`. -/
def isArray : JsVal → Bool
  | .arr _ => true
  | _ => false

/-- The test `Number.isInteger`: a finite number without a fractional part. -/
def isInteger : JsVal → Bool
  | .num (.dec mantissa exponent) => mantissa % (10 : Int) ^ exponent == 0
  | _ => false

/-- Truthiness, as used by `a || b`. -/
def truthy : JsVal → Bool
  | .undefined => false
  | .null => false
  | .bool b => b
  | .num (.dec mantissa _) => mantissa != 0
  | .num .nan => false
  | .num _ => true
  | .str s => s != ""
  | .arr _ => true
  | .obj _ => true

/-- The expression `a || b`. -/
def orElse (a b : JsVal) : JsVal :=
  if truthy a then a else b

/-- Property read `v.key` for the data properties the model uses: a `TypeError`
on `undefined` and `null`, the property of an object, `undefined` elsewhere. -/
def getProp (v : JsVal) (key : String) : Except String JsVal :=
  match v with
  | .undefined => .error ("TypeError: cannot read property " ++ key ++ " of undefined")
  | .null => .error ("TypeError: cannot read property " ++ key ++ " of null")
  | .obj props => .ok ((props.lookup key).getD .undefined)
  | _ => .ok .undefined

/-- The call `v.toString()`.  `render` is the text the engine gives for
numbers, arrays and objects. -/
def jsToString (render : JsVal → Except String String) (v : JsVal) : Except String String :=
  match v with
  | .undefined => .error "TypeError: cannot read property toString of undefined"
  | .null => .error "TypeError: cannot read property toString of null"
  | .bool b => .ok (if b then "true" else "false")
  | .str s => .ok s
  | other => render other

/-- The expression `v.id.toString()`: its text, or the error it throws. -/
def idText (render : JsVal → Except String String) (v : JsVal) : Except String String :=
  getProp v "id" >>= jsToString render

/-- The values a `for ... of` loop visits: the items of an array, the characters
of a string; anything else is not iterable. -/
def iterate : JsVal → Except String (List JsVal)
  | .arr items => .ok items
  | .str s => .ok (s.toList.map fun c => .str (String.singleton c))
  | _ => .error "TypeError: value is not iterable"

/-! ## Tables -/

/-- A row of `Recipes`. -/
structure RecipeRow where
  id : String
  title : JsVal
  imageurl : JsVal
  servings : JsVal
  readyInMinutes : JsVal
  pricePerServing : JsVal

/-- A row of `Ingredients`. -/
structure IngredientRow where
  ingredient_id : String
  ingredient_name : JsVal
  ingredient_image : JsVal

/-- A row of `RecipeIngredients`. -/
structure RecipeIngredientRow where
  recipe_id : String
  ingredient_id : String
  amount : JsVal
  unit : JsVal

/-- A row of `UserRecipes`. -/
structure UserRecipeRow where
  user_id : String
  recipe_id : String

/-- The four tables. -/
structure Store where
  Recipes : List RecipeRow
  Ingredients : List IngredientRow
  RecipeIngredients : List RecipeIngredientRow
  UserRecipes : List UserRecipeRow

/-! ## Statements -/

/-- The parameter types the code binds with. -/
inductive SqlType
  | VarChar255
  | NVarChar
  | Int
  | Float
  deriving DecidableEq, Repr

/-- One `request.input(name, type, value)`. -/
structure Param where
  name : String
  type : SqlType
  value : JsVal

/-- The statements of the module.  The fixed ones carry the values bound to
their parameters; the patch statement carries its text and its inputs in the
order they were bound. -/
inductive Stmt
  | selectRecipes (id_check : String)
  | insertRecipes (row : RecipeRow)
  | updateRecipes (row : RecipeRow)
  | mergeIngredients (row : IngredientRow)
  | countRecipeIngredients (recipeId ingredientId : String)
  | insertRecipeIngredients (row : RecipeIngredientRow)
  | countUserRecipes (userId recipeId : String)
  | insertUserRecipes (row : UserRecipeRow)
  | patchRecipes (text : String) (recipeId : String) (inputs : List Param)
  | deleteRecipeIngredients (recipeId : String)
  | deleteUserRecipes (recipeId : String)
  | deleteRecipes (recipeId : String)

/-- One item `SET column = @column` applied to one row of `Recipes`.  A name that is not
a column, or a key that is not text, is refused. -/
def setColumn (row : RecipeRow) (p : Param) : Except String RecipeRow :=
  if p.name = "title" then .ok { row with title := p.value }
  else if p.name = "imageurl" then .ok { row with imageurl := p.value }
  else if p.name = "servings" then .ok { row with servings := p.value }
  else if p.name = "readyInMinutes" then .ok { row with readyInMinutes := p.value }
  else if p.name = "pricePerServing" then .ok { row with pricePerServing := p.value }
  else if p.name = "id" then
    match p.value with
    | .str s => .ok { row with id := s }
    | _ => .error "storage: conversion of the key is not modelled"
  else .error ("storage: invalid column name " ++ p.name)

/-- All `SET` items applied to one row, left to right. -/
def setColumns (row : RecipeRow) : List Param → Except String RecipeRow
  | [] => .ok row
  | p :: rest =>
    match setColumn row p with
    | .ok row1 => setColumns row1 rest
    | .error e => .error e

/-- The patch statement applied to the rows of `Recipes`: rows with another key
stay, a row with the key gets every `SET` item. -/
def patchRows (recipeId : String) (inputs : List Param) : List RecipeRow → Except String (List RecipeRow)
  | [] =>
    match setColumns ⟨recipeId, .null, .null, .null, .null, .null⟩ inputs with
    | .ok _ => .ok []
    | .error e => .error e
  | row :: rest =>
    match patchRows recipeId inputs rest with
    | .error e => .error e
    | .ok rest1 =>
      if row.id = recipeId then
        match setColumns row inputs with
        | .ok row1 => .ok (row1 :: rest1)
        | .error e => .error e
      else .ok (row :: rest1)

/-- Statement `INSERT INTO Recipes`. -/
def Store.addRecipe (s : Store) (row : RecipeRow) : Store :=
  { s with Recipes := s.Recipes ++ [row] }

/-- Statement `UPDATE Recipes SET ... WHERE id = @id` with all five columns. -/
def Store.updateRecipe (s : Store) (row : RecipeRow) : Store :=
  { s with Recipes := s.Recipes.map fun r => if r.id = row.id then row else r }

/-- Statement `MERGE INTO Ingredients`: rows with the key get the new name and image; when
there is none the row is inserted. -/
def Store.mergeIngredient (s : Store) (row : IngredientRow) : Store :=
  if s.Ingredients.any (fun r => r.ingredient_id = row.ingredient_id) then
    { s with Ingredients := s.Ingredients.map fun r =>
        if r.ingredient_id = row.ingredient_id then
          { r with ingredient_name := row.ingredient_name, ingredient_image := row.ingredient_image }
        else r }
  else { s with Ingredients := s.Ingredients ++ [row] }

/-- Statement `INSERT INTO RecipeIngredients`. -/
def Store.addLink (s : Store) (row : RecipeIngredientRow) : Store :=
  { s with RecipeIngredients := s.RecipeIngredients ++ [row] }

/-- Statement `INSERT INTO UserRecipes`. -/
def Store.addUserLink (s : Store) (row : UserRecipeRow) : Store :=
  { s with UserRecipes := s.UserRecipes ++ [row] }

/-- The effect of a statement on the tables it runs against. -/
def Stmt.apply (stmt : Stmt) (s : Store) : Except String Store :=
  match stmt with
  | .selectRecipes _ => .ok s
  | .insertRecipes row => .ok (s.addRecipe row)
  | .updateRecipes row => .ok (s.updateRecipe row)
  | .mergeIngredients row => .ok (s.mergeIngredient row)
  | .countRecipeIngredients _ _ => .ok s
  | .insertRecipeIngredients row => .ok (s.addLink row)
  | .countUserRecipes _ _ => .ok s
  | .insertUserRecipes row => .ok (s.addUserLink row)
  | .patchRecipes _ recipeId inputs =>
    match patchRows recipeId inputs s.Recipes with
    | .ok rows => .ok { s with Recipes := rows }
    | .error e => .error e
  | .deleteRecipeIngredients recipeId =>
    .ok { s with RecipeIngredients := s.RecipeIngredients.filter fun r => r.recipe_id ≠ recipeId }
  | .deleteUserRecipes recipeId =>
    .ok { s with UserRecipes := s.UserRecipes.filter fun r => r.recipe_id ≠ recipeId }
  | .deleteRecipes recipeId =>
    .ok { s with Recipes := s.Recipes.filter fun r => r.id ≠ recipeId }

/-! ## Connections, transactions and jobs -/

/-- Where a request is created: on the pool (the statement commits by itself)
or on the open transaction. -/
inductive Channel
  | viaPool
  | viaTransaction
  deriving DecidableEq, Repr

/-- The storage side of a call: the committed tables, the tables as the open
transaction sees them, the statements sent so far and the verdicts of storage
on the coming ones. -/
structure World where
  db : Store
  tx : Store
  log : List Stmt
  faults : List Bool

/-- A world with no statement sent yet and no transaction open. -/
def World.init (db : Store) (faults : List Bool) : World :=
  ⟨db, db, [], faults⟩

/-- The tables a channel reads and writes. -/
def World.rows (w : World) : Channel → Store
  | .viaPool => w.db
  | .viaTransaction => w.tx

/-- Replace the tables of a channel. -/
def World.setRows (w : World) (ch : Channel) (s : Store) : World :=
  match ch with
  | .viaPool => { w with db := s }
  | .viaTransaction => { w with tx := s }

/-- An asynchronous function body: it runs against a world and either returns
or throws, leaving a world behind in both cases. -/
def Job (α : Type) : Type := World → Except String α × World

/-- Run a job. -/
def Job.run {α : Type} (j : Job α) (w : World) : Except String α × World := j w

/-- A job that returns at once. -/
def Job.pure {α : Type} (a : α) : Job α := fun w => (.ok a, w)

/-- Sequencing (`await`): a throw skips the rest. -/
def Job.bind {α β : Type} (j : Job α) (f : α → Job β) : Job β := fun w =>
  match j w with
  | (.ok a, w1) => f a w1
  | (.error e, w1) => (.error e, w1)

/-- A `throw`. -/
def Job.throw {α : Type} (e : String) : Job α := fun w => (.error e, w)

/-- A `try` block with its `catch` handler. -/
def Job.tryCatch {α : Type} (j : Job α) (handler : String → Job α) : Job α := fun w =>
  match j w with
  | (.ok a, w1) => (.ok a, w1)
  | (.error e, w1) => handler e w1

instance : Monad Job where
  pure := Job.pure
  bind := Job.bind

instance : MonadExcept String Job where
  throw := Job.throw
  tryCatch := Job.tryCatch

/-- A synchronous computation used inside a job. -/
def Job.ofExcept {α : Type} : Except String α → Job α
  | .ok a => Job.pure a
  | .error e => Job.throw e

/-- The verdict of storage on the next statement. -/
def refused (faults : List Bool) : Bool := faults.headD false

/-- The world once a statement has gone out: it is logged and one verdict of
storage is used up. -/
def World.sent (w : World) (stmt : Stmt) : World :=
  { w with log := w.log ++ [stmt], faults := w.faults.tail }

/-- Send one statement on a channel (`request.query`).  When storage accepts it
the tables of the channel change as `Stmt.apply` says. -/
def query (ch : Channel) (stmt : Stmt) : Job Unit := fun w =>
  if refused w.faults then (.error "storage: statement refused", w.sent stmt)
  else
    match stmt.apply (w.rows ch) with
    | .ok s => (.ok (), (w.sent stmt).setRows ch s)
    | .error e => (.error e, w.sent stmt)

/-- The tables as the channel sees them now (what a `SELECT` reads). -/
def readRows (ch : Channel) : Job Store := fun w => (.ok (w.rows ch), w)

/-- Start of the unit of work (`transaction.begin`). -/
def begin : Job Unit := fun w => (.ok (), { w with tx := w.db })

/-- End of the unit of work (`transaction.commit`); storage may refuse it. -/
def commit : Job Unit := fun w =>
  if refused w.faults then (.error "storage: commit refused", { w with faults := w.faults.tail })
  else (.ok (), { w with db := w.tx, faults := w.faults.tail })

/-- Undo of the unit of work (`transaction.rollback`). -/
def rollback : Job Unit := fun w => (.ok (), { w with tx := w.db })

/-- The connection object as a JavaScript value: an object whose properties are
the bookkeeping of the driver, none of them a recipe column. -/
def Channel.handle (_ch : Channel) : JsVal := .obj []

/-! ## The functions of the module -/

/-- Source: `validateUpdateFields` (recipe.js 143-169). -/
def validateUpdateFields (updates : JsVal) : Except String Unit := do
  if typeof updates ≠ .object ∨ isArray updates then
    throw "Updates must be an object"
  if typeof (← getProp updates "title") ≠ .string then
    throw "Title must be a string"
  if typeof (← getProp updates "imageurl") ≠ .string then
    throw "Image URL must be a string"
  if !isInteger (← getProp updates "servings") then
    throw "Servings must be an integer"
  if !isInteger (← getProp updates "readyInMinutes") then
    throw "Ready in minutes must be an integer"
  if typeof (← getProp updates "pricePerServing") ≠ .number then
    throw "Price per serving must be a number"

/-- Source: `updateRecipeDetails` (recipe.js 106-140).  It has one parameter,
takes its own connection from the pool and sends its statement there. -/
def updateRecipeDetails (render : JsVal → Except String String) (recipe : JsVal) : Job Unit := do
  Job.ofExcept (validateUpdateFields recipe)
  let id ← Job.ofExcept (idText render recipe)
  let title ← Job.ofExcept (getProp recipe "title")
  let imageurl ← Job.ofExcept (getProp recipe "imageurl")
  let servings ← Job.ofExcept (getProp recipe "servings")
  let readyInMinutes ← Job.ofExcept (getProp recipe "readyInMinutes")
  let pricePerServing ← Job.ofExcept (getProp recipe "pricePerServing")
  query .viaPool (.updateRecipes
    ⟨id, title, orElse imageurl (.str ""), servings, readyInMinutes, pricePerServing⟩)

/-- Source: `insertRecipeDetails` (recipe.js 68-103).  The call on line 80 is
`updateRecipeDetails(pool, recipe)`: the single parameter of the callee receives
the connection object and the payload is dropped. -/
def insertRecipeDetails (render : JsVal → Except String String) (pool : Channel)
    (recipe : JsVal) : Job Unit := do
  let idString ← Job.ofExcept (idText render recipe)
  query pool (.selectRecipes idString)
  let existingRecipe := (← readRows pool).Recipes.filter fun r => r.id = idString
  if existingRecipe.length > 0 then
    updateRecipeDetails render pool.handle
  else
    let title ← Job.ofExcept (getProp recipe "title")
    let image ← Job.ofExcept (getProp recipe "image")
    let servings ← Job.ofExcept (getProp recipe "servings")
    let readyInMinutes ← Job.ofExcept (getProp recipe "readyInMinutes")
    let pricePerServing ← Job.ofExcept (getProp recipe "pricePerServing")
    query pool (.insertRecipes ⟨idString, title, image, servings, readyInMinutes, pricePerServing⟩)

/-- Source: `insertOrUpdateIngredient` (recipe.js 185-205), one `MERGE`. -/
def insertOrUpdateIngredient (render : JsVal → Except String String) (pool : Channel)
    (ingredient : JsVal) : Job Unit := do
  let id ← Job.ofExcept (idText render ingredient)
  let name ← Job.ofExcept (getProp ingredient "name")
  let image ← Job.ofExcept (getProp ingredient "image")
  query pool (.mergeIngredients ⟨id, name, orElse image (.str "")⟩)

/-- Source: `linkRecipeIngredient` (recipe.js 208-242). -/
def linkRecipeIngredient (render : JsVal → Except String String) (pool : Channel)
    (recipeId : String) (ingredient : JsVal) : Job Unit := do
  let ingredientId ← Job.ofExcept (idText render ingredient)
  query pool (.countRecipeIngredients recipeId ingredientId)
  let count := ((← readRows pool).RecipeIngredients.filter fun r =>
    r.recipe_id = recipeId ∧ r.ingredient_id = ingredientId).length
  if count = 0 then
    let amount ← Job.ofExcept (getProp ingredient "amount")
    let unit ← Job.ofExcept (getProp ingredient "unit")
    query pool (.insertRecipeIngredients ⟨recipeId, ingredientId, amount, orElse unit (.str "")⟩)
  else
    pure ()

/-- The body of the loop of `insertRecipeIngredients` (recipe.js 175-176). -/
def insertRecipeIngredient (render : JsVal → Except String String) (pool : Channel)
    (recipe ingredient : JsVal) : Job Unit := do
  insertOrUpdateIngredient render pool ingredient
  let recipeId ← Job.ofExcept (idText render recipe)
  linkRecipeIngredient render pool recipeId ingredient

/-- Source: `insertRecipeIngredients` (recipe.js 172-182): the loop over
`recipe.extendedIngredients`. -/
def insertRecipeIngredients (render : JsVal → Except String String) (pool : Channel)
    (recipe : JsVal) : Job Unit := do
  let ingredients ← Job.ofExcept (getProp recipe "extendedIngredients" >>= iterate)
  ingredients.forM (insertRecipeIngredient render pool recipe)

/-- Source: `linkUserToRecipe` (recipe.js 245-277). -/
def linkUserToRecipe (render : JsVal → Except String String) (transaction : Channel)
    (userId recipeId : JsVal) : Job Unit := do
  let user ← Job.ofExcept (jsToString render userId)
  let recipe ← Job.ofExcept (jsToString render recipeId)
  query transaction (.countUserRecipes user recipe)
  let count := ((← readRows transaction).UserRecipes.filter fun r =>
    r.user_id = user ∧ r.recipe_id = recipe).length
  if count = 0 then
    query transaction (.insertUserRecipes ⟨user, recipe⟩)
  else
    pure ()

/-- Source: `insertRecipe` (recipe.js 44-65). -/
def insertRecipe (render : JsVal → Except String String) (recipe userId : JsVal) : Job Unit :=
  tryCatch
    (do
      begin
      insertRecipeDetails render .viaTransaction recipe
      insertRecipeIngredients render .viaTransaction recipe
      linkUserToRecipe render .viaTransaction userId (← Job.ofExcept (getProp recipe "id"))
      commit)
    (fun err => do
      rollback
      throw err)

/-- The `SET` clause of the patch: `Object.keys(updates)` mapped and joined. -/
def setClause (updates : List (String × JsVal)) : String :=
  ", ".intercalate (updates.map fun entry => entry.1 ++ " = @" ++ entry.1)

/-- The text of the patch statement (recipe.js 294-298). -/
def patchQuery (fields : String) : String :=
  "\n      UPDATE Recipes\n      SET " ++ fields ++ "\n      WHERE id = @recipeId;\n    "

/-- The type chosen for one entry of the patch (recipe.js 306-315). -/
def sqlTypeOf (key : String) (value : JsVal) : Except String SqlType :=
  if typeof value = .string then .ok .NVarChar
  else if typeof value = .number then .ok .Float
  else if isInteger value then .ok .Int
  else .error ("Unsupported data type for field " ++ key)

/-- The inputs bound by the `forEach` over `Object.entries(updates)`
(recipe.js 304-317), in order, stopping at the first throw. -/
def bindInputs : List (String × JsVal) → Except String (List Param)
  | [] => .ok []
  | (key, value) :: rest =>
    match sqlTypeOf key value with
    | .error e => .error e
    | .ok type =>
      match bindInputs rest with
      | .error e => .error e
      | .ok inputs => .ok (⟨key, type, value⟩ :: inputs)

/-- Source: `editRecipe` (recipe.js 281-330).  `updates` is the mapping as the
list of its entries in enumeration order. -/
def editRecipe (recipeId : String) (updates : List (String × JsVal)) : Job Unit := do
  let fields := setClause updates
  if fields.length = 0 then
    throw "No fields to update"
  let text := patchQuery fields
  let inputs ← Job.ofExcept (bindInputs updates)
  query .viaPool (.patchRecipes text recipeId inputs)

/-- Source: `deleteRecipe` (recipe.js 333-373). -/
def deleteRecipe (recipeId : String) : Job Unit :=
  tryCatch
    (do
      begin
      query .viaTransaction (.deleteRecipeIngredients recipeId)
      query .viaTransaction (.deleteUserRecipes recipeId)
      query .viaTransaction (.deleteRecipes recipeId)
      commit)
    (fun error => do
      rollback
      throw error)

/-! ## Vocabulary of the properties -/

/-- The values the patch can bind: text and numbers. -/
def isStringOrNumber (v : JsVal) : Bool :=
  typeof v = .string || typeof v = .number

/-- The columns of `Recipes` that the full update sets (recipe.js 117-121). -/
def recipeColumns : List String :=
  ["title", "imageurl", "servings", "readyInMinutes", "pricePerServing"]

/-- A store without rows. -/
def Store.empty : Store := ⟨[], [], [], []⟩

/-- The value of `v.key` where the read does not throw. -/
def propOf (v : JsVal) (key : String) : JsVal :=
  match getProp v key with
  | .ok x => x
  | .error _ => .undefined

/-- The keys of `Recipes`. -/
def Store.recipeKeys (s : Store) : List String :=
  s.Recipes.map fun r => r.id

/-- The keys of `Ingredients`. -/
def Store.ingredientKeys (s : Store) : List String :=
  s.Ingredients.map fun r => r.ingredient_id

/-- The keys of `RecipeIngredients`. -/
def Store.linkKeys (s : Store) : List (String × String) :=
  s.RecipeIngredients.map fun r => (r.recipe_id, r.ingredient_id)

/-- The keys of `UserRecipes`. -/
def Store.userKeys (s : Store) : List (String × String) :=
  s.UserRecipes.map fun r => (r.user_id, r.recipe_id)

/-- The key constraints of the schema: no key occurs twice in its table. -/
def Store.KeysUnique (s : Store) : Prop :=
  s.recipeKeys.Nodup ∧ s.ingredientKeys.Nodup ∧ s.linkKeys.Nodup ∧ s.userKeys.Nodup

/-- The row `insertRecipeDetails` inserts for a payload. -/
def recipeRowOf (idString : String) (recipe : JsVal) : RecipeRow :=
  ⟨idString, propOf recipe "title", propOf recipe "image", propOf recipe "servings",
    propOf recipe "readyInMinutes", propOf recipe "pricePerServing"⟩

/-- The row `linkRecipeIngredient` inserts for an ingredient. -/
def linkRowOf (recipeId ingredientId : String) (ingredient : JsVal) : RecipeIngredientRow :=
  ⟨recipeId, ingredientId, propOf ingredient "amount", orElse (propOf ingredient "unit") (.str "")⟩

/-- The row `insertOrUpdateIngredient` merges for an ingredient. -/
def ingredientRowOf (ingredientId : String) (ingredient : JsVal) : IngredientRow :=
  ⟨ingredientId, propOf ingredient "name", orElse (propOf ingredient "image") (.str "")⟩

/-- The two association constraints: at most one row per `(recipe_id,
ingredient_id)` and at most one row per `(user_id, recipe_id)`. -/
def Store.LinksUnique (s : Store) : Prop :=
  s.linkKeys.Nodup ∧ s.userKeys.Nodup

/-- An engine text for the examples: they use text keys only. -/
def noRender : JsVal → Except String String :=
  fun _ => .error "TypeError: toString is not modelled for this value"

/-- Two recipes `A` and `B` that share the ingredient `7`, both saved by `u1`. -/
def sharedStore : Store :=
  { Recipes := [⟨"A", .str "Soup", .str "", .num (.dec 4 0), .num (.dec 30 0), .num (.dec 15 1)⟩,
      ⟨"B", .str "Stew", .str "", .num (.dec 2 0), .num (.dec 90 0), .num (.dec 3 0)⟩]
    Ingredients := [⟨"7", .str "Salt", .str ""⟩]
    RecipeIngredients := [⟨"A", "7", .num (.dec 1 0), .str "tsp"⟩,
      ⟨"B", "7", .num (.dec 2 0), .str "tsp"⟩]
    UserRecipes := [⟨"u1", "A"⟩, ⟨"u1", "B"⟩] }

/-- What the ingredient steps of an import may do to the tables: `Recipes` and
`UserRecipes` stay, no key of `Ingredients` or `RecipeIngredients` is lost and
none is duplicated. -/
def Store.Extends (s t : Store) : Prop :=
  t.Recipes = s.Recipes ∧ t.UserRecipes = s.UserRecipes
  ∧ (s.ingredientKeys.Nodup → t.ingredientKeys.Nodup)
  ∧ (∀ k ∈ s.ingredientKeys, k ∈ t.ingredientKeys)
  ∧ (s.linkKeys.Nodup → t.linkKeys.Nodup)
  ∧ (∀ k ∈ s.linkKeys, k ∈ t.linkKeys)

/-- A job that never changes the committed tables. -/
def Job.KeepsDb {α : Type} (j : Job α) : Prop :=
  ∀ w, (j.run w).2.db = w.db

/-- A job that leaves the committed tables alone whenever it throws. -/
def Job.FailsClean {α : Type} (j : Job α) : Prop :=
  ∀ w e, (j.run w).1 = .error e → (j.run w).2.db = w.db

/-- The payload of the example in the specification: recipe `42` with the one
ingredient `7`. -/
def soup : JsVal :=
  .obj [("id", .str "42"), ("title", .str "Soup"), ("servings", .num (.dec 4 0)),
    ("readyInMinutes", .num (.dec 30 0)), ("pricePerServing", .num (.dec 15 1)),
    ("extendedIngredients",
      .arr [.obj [("id", .str "7"), ("name", .str "Salt"), ("amount", .num (.dec 1 0)),
        ("unit", .str "tsp")]])]

/-- The store after `soup` was imported for user `u1`. -/
def soupStore : Store :=
  { Recipes := [⟨"42", .str "Soup", .undefined, .num (.dec 4 0), .num (.dec 30 0),
      .num (.dec 15 1)⟩]
    Ingredients := [⟨"7", .str "Salt", .str ""⟩]
    RecipeIngredients := [⟨"42", "7", .num (.dec 1 0), .str "tsp"⟩]
    UserRecipes := [⟨"u1", "42"⟩] }

/-- A second payload for recipe `42`, with another title and no ingredients. -/
def soupRetitled : JsVal :=
  .obj [("id", .str "42"), ("title", .str "Broth"), ("image", .str "broth.png"),
    ("servings", .num (.dec 2 0)), ("readyInMinutes", .num (.dec 10 0)),
    ("pricePerServing", .num (.dec 1 0)), ("extendedIngredients", .arr [])]

/-! # Properties -/

/-! ## Running jobs -/

section JobLemmas
variable {α β : Type}

@[simp] theorem run_pure (a : α) (w : World) : (pure a : Job α).run w = (.ok a, w) := rfl

@[simp] theorem run_throw (e : String) (w : World) :
    (throw e : Job α).run w = (.error e, w) := rfl

theorem run_bind (j : Job α) (f : α → Job β) (w : World) :
    (j >>= f).run w =
      match (j.run w).1 with
      | .ok a => (f a).run (j.run w).2
      | .error e => (.error e, (j.run w).2) := by
  show Job.bind j f w = _
  unfold Job.bind Job.run
  rcases h : j w with ⟨r, w1⟩
  cases r <;> rfl

@[simp] theorem run_ofExcept (x : Except String α) (w : World) :
    (Job.ofExcept x).run w = (x, w) := by
  cases x <;> rfl

theorem run_tryCatch (j : Job α) (handler : String → Job α) (w : World) :
    (tryCatch j handler).run w =
      match (j.run w).1 with
      | .ok a => (.ok a, (j.run w).2)
      | .error e => (handler e).run (j.run w).2 := by
  show Job.tryCatch j handler w = _
  unfold Job.tryCatch Job.run
  rcases h : j w with ⟨r, w1⟩
  cases r <;> rfl

end JobLemmas

theorem run_query (ch : Channel) (stmt : Stmt) (w : World) :
    (query ch stmt).run w =
      if refused w.faults then (.error "storage: statement refused", w.sent stmt)
      else
        match stmt.apply (w.rows ch) with
        | .ok s => (.ok (), (w.sent stmt).setRows ch s)
        | .error e => (.error e, w.sent stmt) := rfl

@[simp] theorem rows_setRows (w : World) (ch : Channel) (s : Store) :
    (w.setRows ch s).rows ch = s := by
  cases ch <;> rfl

@[simp] theorem rows_sent (w : World) (stmt : Stmt) (ch : Channel) :
    (w.sent stmt).rows ch = w.rows ch := by
  cases ch <;> rfl

@[simp] theorem setRows_rows (w : World) (ch : Channel) : w.setRows ch (w.rows ch) = w := by
  cases ch <;> rfl

@[simp] theorem setRows_sent_rows (w : World) (stmt : Stmt) (ch : Channel) :
    (w.sent stmt).setRows ch (w.rows ch) = w.sent stmt := by
  cases ch <;> rfl

@[simp] theorem log_sent (w : World) (stmt : Stmt) : (w.sent stmt).log = w.log ++ [stmt] := rfl

@[simp] theorem faults_sent (w : World) (stmt : Stmt) : (w.sent stmt).faults = w.faults.tail := rfl

@[simp] theorem db_sent (w : World) (stmt : Stmt) : (w.sent stmt).db = w.db := rfl

@[simp] theorem tx_sent (w : World) (stmt : Stmt) : (w.sent stmt).tx = w.tx := rfl

@[simp] theorem log_setRows (w : World) (ch : Channel) (s : Store) :
    (w.setRows ch s).log = w.log := by
  cases ch <;> rfl

@[simp] theorem faults_setRows (w : World) (ch : Channel) (s : Store) :
    (w.setRows ch s).faults = w.faults := by
  cases ch <;> rfl

@[simp] theorem db_setRows_transaction (w : World) (s : Store) :
    (w.setRows .viaTransaction s).db = w.db := rfl

@[simp] theorem tx_setRows_transaction (w : World) (s : Store) :
    (w.setRows .viaTransaction s).tx = s := rfl

@[simp] theorem run_readRows (ch : Channel) (w : World) :
    (readRows ch).run w = (.ok (w.rows ch), w) := rfl

@[simp] theorem run_begin (w : World) : begin.run w = (.ok (), { w with tx := w.db }) := rfl

@[simp] theorem run_rollback (w : World) : rollback.run w = (.ok (), { w with tx := w.db }) := rfl

theorem run_commit (w : World) :
    commit.run w =
      if refused w.faults then
        (.error "storage: commit refused", { w with faults := w.faults.tail })
      else (.ok (), { w with db := w.tx, faults := w.faults.tail }) := rfl

@[simp] theorem refused_nil : refused [] = false := rfl

/-! ## The patch -/

theorem intercalate_go_length (sep : String) (items : List String) (acc : String) :
    acc.length ≤ (String.intercalate.go acc sep items).length := by
  induction items generalizing acc with
  | nil => simp [String.intercalate.go]
  | cons a rest ih =>
    simp only [String.intercalate.go]
    have h := ih (acc ++ sep ++ a)
    simp only [String.length_append] at h
    omega

theorem setClause_length_eq_zero (updates : List (String × JsVal)) :
    (setClause updates).length = 0 ↔ updates = [] := by
  cases updates with
  | nil => simp [setClause, String.intercalate]
  | cons entry rest =>
    have h := intercalate_go_length ", " (rest.map fun e => e.1 ++ " = @" ++ e.1)
      (entry.1 ++ " = @" ++ entry.1)
    simp only [String.length_append] at h
    have h4 : " = @".length = 4 := by decide
    simp only [setClause, List.map_cons, String.intercalate]
    constructor
    · intro h0
      omega
    · intro h0
      exact absurd h0 (by simp)

theorem run_editRecipe (recipeId : String) (updates : List (String × JsVal)) (w : World) :
    (editRecipe recipeId updates).run w =
      if (setClause updates).length = 0 then (.error "No fields to update", w)
      else
        match bindInputs updates with
        | .error e => (.error e, w)
        | .ok inputs =>
          (query .viaPool (.patchRecipes (patchQuery (setClause updates)) recipeId inputs)).run w := by
  unfold editRecipe
  simp only [run_bind]
  by_cases h : (setClause updates).length = 0
  · simp [h, run_bind]
  · simp only [h, if_false, run_pure, run_ofExcept]
    cases bindInputs updates <;> rfl

theorem sqlTypeOf_supported (key : String) (value : JsVal) (h : isStringOrNumber value = true) :
    sqlTypeOf key value = .ok (if typeof value = .string then .NVarChar else .Float) := by
  unfold sqlTypeOf
  by_cases hs : typeof value = .string
  · simp [hs]
  · have hn : typeof value = .number := by simpa [isStringOrNumber, hs] using h
    simp [hn]

theorem sqlTypeOf_unsupported (key : String) (value : JsVal) (h : isStringOrNumber value = false) :
    sqlTypeOf key value = .error ("Unsupported data type for field " ++ key) := by
  have hs : typeof value ≠ .string := by
    intro hs
    simp [isStringOrNumber, hs] at h
  have hn : typeof value ≠ .number := by
    intro hn
    simp [isStringOrNumber, hn] at h
  have hi : isInteger value = false := by
    cases value with
    | num n => exact absurd rfl hn
    | _ => rfl
  simp [sqlTypeOf, hs, hn, hi]

theorem bindInputs_supported (updates : List (String × JsVal))
    (h : ∀ entry ∈ updates, isStringOrNumber entry.2 = true) :
    bindInputs updates = .ok (updates.map fun entry =>
      ⟨entry.1, if typeof entry.2 = .string then .NVarChar else .Float, entry.2⟩) := by
  induction updates with
  | nil => rfl
  | cons entry rest ih =>
    obtain ⟨key, value⟩ := entry
    have h1 : isStringOrNumber value = true := h (key, value) (by simp)
    have h2 := ih (fun e he => h e (by simp [he]))
    simp [bindInputs, sqlTypeOf_supported key value h1, h2]

theorem bindInputs_first_unsupported (before after : List (String × JsVal)) (key : String)
    (value : JsVal) (hbefore : ∀ entry ∈ before, isStringOrNumber entry.2 = true)
    (hvalue : isStringOrNumber value = false) :
    bindInputs (before ++ (key, value) :: after)
      = .error ("Unsupported data type for field " ++ key) := by
  induction before with
  | nil => simp [bindInputs, sqlTypeOf_unsupported key value hvalue]
  | cons entry rest ih =>
    obtain ⟨k, v⟩ := entry
    have h1 : isStringOrNumber v = true := hbefore (k, v) (by simp)
    have h2 := ih (fun e he => hbefore e (by simp [he]))
    simp only [List.cons_append, bindInputs, sqlTypeOf_supported k v h1, List.append_eq, h2]

theorem bindInputs_error_iff (updates : List (String × JsVal)) :
    (∃ e, bindInputs updates = .error e) ↔ ∃ entry ∈ updates, isStringOrNumber entry.2 = false := by
  induction updates with
  | nil => simp [bindInputs]
  | cons entry rest ih =>
    obtain ⟨key, value⟩ := entry
    cases hv : isStringOrNumber value with
    | false => simp [bindInputs, sqlTypeOf_unsupported key value hv, hv]
    | true =>
      simp only [bindInputs, sqlTypeOf_supported key value hv, List.mem_cons, exists_eq_or_imp, hv,
        Bool.true_eq_false, false_or, ← ih]
      cases bindInputs rest <;> simp

theorem log_query (ch : Channel) (stmt : Stmt) (w : World) :
    ((query ch stmt).run w).2.log = w.log ++ [stmt] := by
  rw [run_query]
  split
  · rfl
  · split <;> simp

theorem validateUpdateFields_not_object (updates : JsVal)
    (h : typeof updates ≠ .object ∨ isArray updates = true) :
    validateUpdateFields updates = .error "Updates must be an object" := by
  unfold validateUpdateFields
  simp only [h, if_true]
  rfl

theorem validateUpdateFields_object (props : List (String × JsVal)) :
    validateUpdateFields (.obj props) =
      if typeof (propOf (.obj props) "title") ≠ .string then .error "Title must be a string"
      else if typeof (propOf (.obj props) "imageurl") ≠ .string then
        .error "Image URL must be a string"
      else if isInteger (propOf (.obj props) "servings") = false then
        .error "Servings must be an integer"
      else if isInteger (propOf (.obj props) "readyInMinutes") = false then
        .error "Ready in minutes must be an integer"
      else if typeof (propOf (.obj props) "pricePerServing") ≠ .number then
        .error "Price per serving must be a number"
      else .ok () := by
  unfold validateUpdateFields
  simp only [typeof, isArray, propOf, getProp, ne_eq, not_true_eq_false, Bool.false_eq_true,
    or_self, if_false]
  split_ifs <;> simp_all [bind, Except.bind, pure, Except.pure, throw, throwThe,
    MonadExceptOf.throw]

/-- C9 (failing input and the rest of the claim): `null` passes the object test
of the validator (`typeof null` is `object` and it is no array), so the call
does not end with `Updates must be an object` but with the `TypeError` of
reading `null.title`.  Every other value behaves as stated: a value that is no
object, or an array, is rejected with `Updates must be an object`, and an
object is accepted exactly when the five fields have their types, the first
offending field being the one named otherwise. -/
theorem validateUpdateFields_null :
    typeof .null = .object
    ∧ isArray .null = false
    ∧ validateUpdateFields .null = .error "TypeError: cannot read property title of null"
    ∧ (∀ updates : JsVal, typeof updates ≠ .object ∨ isArray updates = true →
        validateUpdateFields updates = .error "Updates must be an object")
    ∧ (∀ props : List (String × JsVal),
        validateUpdateFields (.obj props) =
          if typeof (propOf (.obj props) "title") ≠ .string then .error "Title must be a string"
          else if typeof (propOf (.obj props) "imageurl") ≠ .string then
            .error "Image URL must be a string"
          else if isInteger (propOf (.obj props) "servings") = false then
            .error "Servings must be an integer"
          else if isInteger (propOf (.obj props) "readyInMinutes") = false then
            .error "Ready in minutes must be an integer"
          else if typeof (propOf (.obj props) "pricePerServing") ≠ .number then
            .error "Price per serving must be a number"
          else .ok ()) :=
  ⟨rfl, rfl, rfl, validateUpdateFields_not_object, validateUpdateFields_object⟩

theorem sqlTypeOf_never_int (key : String) (value : JsVal) : sqlTypeOf key value ≠ .ok .Int := by
  unfold sqlTypeOf
  split_ifs with h1 h2 h3
  · simp
  · simp
  · exfalso
    cases value with
    | num n => exact h2 rfl
    | _ => simp [isInteger] at h3
  · simp

/-! ## Properties of the patch (`editRecipe`) and of the validator -/

/-- C7 (failing input): `servings: 4` is an integer number, and the patch binds
it with the decimal type; the integer branch of the type choice comes after the
branch for every number, so no value is ever bound with the integer type. -/
theorem editRecipe_binds_integer_as_float :
    isInteger (.num (.dec 4 0)) = true
    ∧ sqlTypeOf "servings" (.num (.dec 4 0)) = .ok .Float
    ∧ (∀ (key : String) (value : JsVal), sqlTypeOf key value ≠ .ok .Int)
    ∧ ((editRecipe "42" [("servings", .num (.dec 4 0))]).run (World.init Store.empty [])).2.log
        = [.patchRecipes
            "\n      UPDATE Recipes\n      SET servings = @servings\n      WHERE id = @recipeId;\n    "
            "42" [⟨"servings", .Float, .num (.dec 4 0)⟩]] :=
  ⟨rfl, rfl, sqlTypeOf_never_int, rfl⟩

theorem run_deleteRecipe_ok (recipeId : String) (w : World)
    (h : ((deleteRecipe recipeId).run w).1 = .ok ()) :
    ((deleteRecipe recipeId).run w).2.log
        = w.log ++ [.deleteRecipeIngredients recipeId, .deleteUserRecipes recipeId,
            .deleteRecipes recipeId]
    ∧ ((deleteRecipe recipeId).run w).2.db
        = { Recipes := w.db.Recipes.filter fun r => r.id ≠ recipeId
            Ingredients := w.db.Ingredients
            RecipeIngredients := w.db.RecipeIngredients.filter fun r => r.recipe_id ≠ recipeId
            UserRecipes := w.db.UserRecipes.filter fun r => r.recipe_id ≠ recipeId } := by
  revert h
  unfold deleteRecipe
  simp only [run_tryCatch, run_bind, run_query, run_commit, run_begin, run_rollback, run_throw,
    Stmt.apply, World.setRows, World.rows, World.sent]
  by_cases h1 : refused w.faults = true
  · simp [h1]
  · by_cases h2 : refused w.faults.tail = true
    · simp [h1, h2]
    · by_cases h3 : refused w.faults.tail.tail = true
      · simp [h1, h2, h3]
      · by_cases h4 : refused w.faults.tail.tail.tail = true
        · simp [h1, h2, h3, h4]
        · simp [h1, h2, h3, h4]

theorem run_deleteRecipe_quiet (recipeId : String) (db : Store) :
    ((deleteRecipe recipeId).run (World.init db [])).1 = .ok () := by
  unfold deleteRecipe
  simp [run_tryCatch, run_bind, run_query, run_commit, Stmt.apply, World.setRows, World.rows,
    World.init, World.sent]

theorem filter_other_key {ρ : Type} (key : ρ → String) (rows : List ρ) (removed other : String)
    (h : other ≠ removed) :
    (rows.filter fun r => key r ≠ removed).filter (fun r => key r = other)
      = rows.filter fun r => key r = other := by
  rw [List.filter_filter]
  apply List.filter_congr
  intro r _
  by_cases hk : key r = other
  · simp [hk, h]
  · simp [hk]

/-- C5: a successful `deleteRecipe(recipeId)` sends exactly three statements,
the deletion from `RecipeIngredients`, from `UserRecipes` and from `Recipes`, in
this order, and the committed store is the initial one without the rows of
`recipeId` in these three tables: `Ingredients` is unchanged and the rows of
every other recipe are the rows it had.  When storage accepts every statement
the call succeeds. -/
theorem deleteRecipe_cascade (recipeId : String) (db : Store) (faults : List Bool) :
    (((deleteRecipe recipeId).run (World.init db faults)).1 = .ok () →
      ((deleteRecipe recipeId).run (World.init db faults)).2.log
          = [.deleteRecipeIngredients recipeId, .deleteUserRecipes recipeId,
              .deleteRecipes recipeId]
      ∧ ((deleteRecipe recipeId).run (World.init db faults)).2.db
          = { Recipes := db.Recipes.filter fun r => r.id ≠ recipeId
              Ingredients := db.Ingredients
              RecipeIngredients := db.RecipeIngredients.filter fun r => r.recipe_id ≠ recipeId
              UserRecipes := db.UserRecipes.filter fun r => r.recipe_id ≠ recipeId }
      ∧ ((deleteRecipe recipeId).run (World.init db faults)).2.db.Ingredients = db.Ingredients
      ∧ ∀ other : String, other ≠ recipeId →
          (((deleteRecipe recipeId).run (World.init db faults)).2.db.Recipes.filter
              fun r => r.id = other) = (db.Recipes.filter fun r => r.id = other)
          ∧ (((deleteRecipe recipeId).run (World.init db faults)).2.db.RecipeIngredients.filter
              fun r => r.recipe_id = other)
              = (db.RecipeIngredients.filter fun r => r.recipe_id = other)
          ∧ (((deleteRecipe recipeId).run (World.init db faults)).2.db.UserRecipes.filter
              fun r => r.recipe_id = other)
              = (db.UserRecipes.filter fun r => r.recipe_id = other))
    ∧ ((deleteRecipe recipeId).run (World.init db [])).1 = .ok () := by
  refine ⟨?_, run_deleteRecipe_quiet recipeId db⟩
  intro h
  obtain ⟨hlog, hdb⟩ := run_deleteRecipe_ok recipeId (World.init db faults) h
  refine ⟨by simpa [World.init] using hlog, by simpa [World.init] using hdb, ?_, ?_⟩
  · rw [hdb]
    rfl
  · intro other hother
    rw [hdb]
    exact ⟨filter_other_key (fun r : RecipeRow => r.id) db.Recipes recipeId other hother,
      filter_other_key (fun r : RecipeIngredientRow => r.recipe_id) db.RecipeIngredients
        recipeId other hother,
      filter_other_key (fun r : UserRecipeRow => r.recipe_id) db.UserRecipes recipeId other hother⟩

/-- Deleting recipe `A`, which shares ingredient `7` with recipe `B`. -/
theorem deleteRecipe_cascade_witness :
    ((deleteRecipe "A").run (World.init sharedStore [])).2.db
      = { Recipes := [⟨"B", .str "Stew", .str "", .num (.dec 2 0), .num (.dec 90 0), .num (.dec 3 0)⟩]
          Ingredients := [⟨"7", .str "Salt", .str ""⟩]
          RecipeIngredients := [⟨"B", "7", .num (.dec 2 0), .str "tsp"⟩]
          UserRecipes := [⟨"u1", "B"⟩] } :=
  ((deleteRecipe_cascade "A" sharedStore []).1 (by rfl)).2.1.trans (by
    simp [sharedStore])

/-! ## The steps of the import, one by one -/

theorem getProp_of_idText {render : JsVal → Except String String} {v : JsVal} {text : String}
    (h : idText render v = .ok text) (key : String) : getProp v key = .ok (propOf v key) := by
  cases v <;> first | rfl | (simp [idText, getProp, bind, Except.bind] at h)

theorem run_updateRecipeDetails_handle (render : JsVal → Except String String) (ch : Channel)
    (w : World) :
    (updateRecipeDetails render ch.handle).run w = (.error "Title must be a string", w) := by
  unfold updateRecipeDetails
  rw [run_bind, run_ofExcept]
  rfl

theorem run_insertRecipeDetails (render : JsVal → Except String String) (ch : Channel)
    (recipe : JsVal) (w : World) :
    (insertRecipeDetails render ch recipe).run w =
      match idText render recipe with
      | .error e => (.error e, w)
      | .ok idString =>
        if refused w.faults then
          (.error "storage: statement refused", w.sent (.selectRecipes idString))
        else if ((w.rows ch).Recipes.filter fun r => r.id = idString).length > 0 then
          (.error "Title must be a string", w.sent (.selectRecipes idString))
        else if refused w.faults.tail then
          (.error "storage: statement refused",
            (w.sent (.selectRecipes idString)).sent (.insertRecipes (recipeRowOf idString recipe)))
        else
          (.ok (),
            ((w.sent (.selectRecipes idString)).sent
              (.insertRecipes (recipeRowOf idString recipe))).setRows ch
                ((w.rows ch).addRecipe (recipeRowOf idString recipe))) := by
  unfold insertRecipeDetails
  rw [run_bind, run_ofExcept]
  dsimp only
  cases hid : idText render recipe with
  | error e => rfl
  | ok idString =>
    simp only [run_bind, run_query, Stmt.apply, setRows_sent_rows, run_readRows]
    by_cases hr : refused w.faults = true
    · simp [hr]
    · simp only [hr, Bool.false_eq_true, if_false, rows_sent]
      by_cases hex : ((w.rows ch).Recipes.filter fun r => r.id = idString).length > 0
      · simp only [hex, if_true, run_updateRecipeDetails_handle]
      · simp only [hex, if_false, run_bind, run_ofExcept, getProp_of_idText hid, run_query,
          Stmt.apply, rows_sent, faults_sent]
        rfl

theorem run_insertOrUpdateIngredient (render : JsVal → Except String String) (ch : Channel)
    (ingredient : JsVal) (w : World) :
    (insertOrUpdateIngredient render ch ingredient).run w =
      match idText render ingredient with
      | .error e => (.error e, w)
      | .ok id =>
        if refused w.faults then
          (.error "storage: statement refused",
            w.sent (.mergeIngredients (ingredientRowOf id ingredient)))
        else
          (.ok (), (w.sent (.mergeIngredients (ingredientRowOf id ingredient))).setRows ch
            ((w.rows ch).mergeIngredient (ingredientRowOf id ingredient))) := by
  unfold insertOrUpdateIngredient
  rw [run_bind, run_ofExcept]
  dsimp only
  cases hid : idText render ingredient with
  | error e => rfl
  | ok id =>
    simp only [run_bind, run_ofExcept, getProp_of_idText hid, run_query, Stmt.apply]
    rfl

theorem run_linkRecipeIngredient (render : JsVal → Except String String) (ch : Channel)
    (recipeId : String) (ingredient : JsVal) (w : World) :
    (linkRecipeIngredient render ch recipeId ingredient).run w =
      match idText render ingredient with
      | .error e => (.error e, w)
      | .ok ingredientId =>
        if refused w.faults then
          (.error "storage: statement refused",
            w.sent (.countRecipeIngredients recipeId ingredientId))
        else if ((w.rows ch).RecipeIngredients.filter fun r =>
            r.recipe_id = recipeId ∧ r.ingredient_id = ingredientId).length = 0 then
          if refused w.faults.tail then
            (.error "storage: statement refused",
              (w.sent (.countRecipeIngredients recipeId ingredientId)).sent
                (.insertRecipeIngredients (linkRowOf recipeId ingredientId ingredient)))
          else
            (.ok (),
              ((w.sent (.countRecipeIngredients recipeId ingredientId)).sent
                (.insertRecipeIngredients (linkRowOf recipeId ingredientId ingredient))).setRows ch
                  ((w.rows ch).addLink (linkRowOf recipeId ingredientId ingredient)))
        else (.ok (), w.sent (.countRecipeIngredients recipeId ingredientId)) := by
  unfold linkRecipeIngredient
  rw [run_bind, run_ofExcept]
  dsimp only
  cases hid : idText render ingredient with
  | error e => rfl
  | ok ingredientId =>
    simp only [run_bind, run_query, Stmt.apply, setRows_sent_rows, run_readRows]
    by_cases hr : refused w.faults = true
    · simp [hr]
    · simp only [hr, Bool.false_eq_true, if_false, rows_sent]
      by_cases hex : ((w.rows ch).RecipeIngredients.filter fun r =>
          r.recipe_id = recipeId ∧ r.ingredient_id = ingredientId).length = 0
      · simp only [hex, if_true, run_bind, run_ofExcept, getProp_of_idText hid, run_query,
          Stmt.apply, rows_sent, faults_sent]
        rfl
      · simp only [hex, if_false, run_pure]

theorem run_linkUserToRecipe (render : JsVal → Except String String) (ch : Channel)
    (userId recipeId : JsVal) (w : World) :
    (linkUserToRecipe render ch userId recipeId).run w =
      match jsToString render userId with
      | .error e => (.error e, w)
      | .ok user =>
        match jsToString render recipeId with
        | .error e => (.error e, w)
        | .ok recipe =>
          if refused w.faults then
            (.error "storage: statement refused", w.sent (.countUserRecipes user recipe))
          else if ((w.rows ch).UserRecipes.filter fun r =>
              r.user_id = user ∧ r.recipe_id = recipe).length = 0 then
            if refused w.faults.tail then
              (.error "storage: statement refused",
                (w.sent (.countUserRecipes user recipe)).sent (.insertUserRecipes ⟨user, recipe⟩))
            else
              (.ok (),
                ((w.sent (.countUserRecipes user recipe)).sent
                  (.insertUserRecipes ⟨user, recipe⟩)).setRows ch
                    ((w.rows ch).addUserLink ⟨user, recipe⟩))
          else (.ok (), w.sent (.countUserRecipes user recipe)) := by
  unfold linkUserToRecipe
  rw [run_bind, run_ofExcept]
  dsimp only
  cases hu : jsToString render userId with
  | error e => rfl
  | ok user =>
    dsimp only
    rw [run_bind, run_ofExcept]
    dsimp only
    cases hrec : jsToString render recipeId with
    | error e => rfl
    | ok recipe =>
      simp only [run_bind, run_query, Stmt.apply, setRows_sent_rows, run_readRows]
      by_cases hr : refused w.faults = true
      · simp [hr]
      · simp only [hr, Bool.false_eq_true, if_false, rows_sent]
        by_cases hex : ((w.rows ch).UserRecipes.filter fun r =>
            r.user_id = user ∧ r.recipe_id = recipe).length = 0
        · simp only [hex, if_true, run_query, Stmt.apply, rows_sent, faults_sent]
        · simp only [hex, if_false, run_pure]

/-! ## Keys of the tables -/

theorem mem_linkKeys_iff (s : Store) (recipeId ingredientId : String) :
    (recipeId, ingredientId) ∈ s.linkKeys ↔
      (s.RecipeIngredients.filter fun r =>
        r.recipe_id = recipeId ∧ r.ingredient_id = ingredientId).length ≠ 0 := by
  simp only [Store.linkKeys, List.mem_map, Prod.mk.injEq, ne_eq, List.length_eq_zero,
    List.filter_eq_nil_iff, decide_eq_true_eq, not_forall, Classical.not_imp, not_not]
  constructor
  · rintro ⟨r, hr, h1, h2⟩
    exact ⟨r, hr, h1, h2⟩
  · rintro ⟨r, hr, h1, h2⟩
    exact ⟨r, hr, h1, h2⟩

theorem mem_userKeys_iff (s : Store) (user recipe : String) :
    (user, recipe) ∈ s.userKeys ↔
      (s.UserRecipes.filter fun r => r.user_id = user ∧ r.recipe_id = recipe).length ≠ 0 := by
  simp only [Store.userKeys, List.mem_map, Prod.mk.injEq, ne_eq, List.length_eq_zero,
    List.filter_eq_nil_iff, decide_eq_true_eq, not_forall, Classical.not_imp, not_not]
  constructor
  · rintro ⟨r, hr, h1, h2⟩
    exact ⟨r, hr, h1, h2⟩
  · rintro ⟨r, hr, h1, h2⟩
    exact ⟨r, hr, h1, h2⟩

theorem nodup_concat_of_not_mem {κ : Type} (keys : List κ) (k : κ) (hn : keys.Nodup)
    (hk : k ∉ keys) : (keys ++ [k]).Nodup := by
  rw [List.nodup_append]
  refine ⟨hn, List.nodup_singleton k, ?_⟩
  intro a ha hb
  rw [List.mem_singleton] at hb
  exact hk (hb ▸ ha)

theorem count_concat_of_not_mem {κ : Type} [BEq κ] [LawfulBEq κ] (keys : List κ) (k : κ)
    (hk : k ∉ keys) : (keys ++ [k]).count k = 1 := by
  rw [List.count_append, List.count_eq_zero_of_not_mem hk]
  simp

@[simp] theorem linkKeys_addLink (s : Store) (row : RecipeIngredientRow) :
    (s.addLink row).linkKeys = s.linkKeys ++ [(row.recipe_id, row.ingredient_id)] := by
  simp [Store.addLink, Store.linkKeys]

@[simp] theorem userKeys_addLink (s : Store) (row : RecipeIngredientRow) :
    (s.addLink row).userKeys = s.userKeys := rfl

@[simp] theorem userKeys_addUserLink (s : Store) (row : UserRecipeRow) :
    (s.addUserLink row).userKeys = s.userKeys ++ [(row.user_id, row.recipe_id)] := by
  simp [Store.addUserLink, Store.userKeys]

@[simp] theorem linkKeys_addUserLink (s : Store) (row : UserRecipeRow) :
    (s.addUserLink row).linkKeys = s.linkKeys := rfl

/-! ## Association links -/

theorem linkRecipeIngredient_rows (render : JsVal → Except String String) (ch : Channel)
    (recipeId : String) (ingredient : JsVal) (w : World) :
    ((linkRecipeIngredient render ch recipeId ingredient).run w).2.rows ch = w.rows ch
    ∨ ∃ ingredientId, idText render ingredient = .ok ingredientId
        ∧ (recipeId, ingredientId) ∉ (w.rows ch).linkKeys
        ∧ ((linkRecipeIngredient render ch recipeId ingredient).run w).1 = .ok ()
        ∧ ((linkRecipeIngredient render ch recipeId ingredient).run w).2.rows ch
            = (w.rows ch).addLink (linkRowOf recipeId ingredientId ingredient) := by
  rw [run_linkRecipeIngredient]
  cases hid : idText render ingredient with
  | error e => exact Or.inl rfl
  | ok iid =>
    have hmem := mem_linkKeys_iff (w.rows ch) recipeId iid
    dsimp only
    split_ifs with h1 h2 h3
    · exact Or.inl (by simp)
    · exact Or.inl (by simp)
    · exact Or.inr ⟨iid, rfl, fun h => hmem.mp h h2, rfl, by simp⟩
    · exact Or.inl (by simp)

theorem linkRecipeIngredient_present (render : JsVal → Except String String) (ch : Channel)
    (recipeId : String) (ingredient : JsVal) (w : World) (ingredientId : String)
    (hid : idText render ingredient = .ok ingredientId)
    (hin : (recipeId, ingredientId) ∈ (w.rows ch).linkKeys) :
    ((linkRecipeIngredient render ch recipeId ingredient).run w).2.rows ch = w.rows ch := by
  rcases linkRecipeIngredient_rows render ch recipeId ingredient w with h | ⟨iid, h1, h2, _, _⟩
  · exact h
  · rw [hid] at h1
    cases h1
    exact absurd hin h2

theorem linkRecipeIngredient_absent (render : JsVal → Except String String) (ch : Channel)
    (recipeId : String) (ingredient : JsVal) (w : World) (ingredientId : String)
    (hid : idText render ingredient = .ok ingredientId)
    (hout : (recipeId, ingredientId) ∉ (w.rows ch).linkKeys)
    (hok : ((linkRecipeIngredient render ch recipeId ingredient).run w).1 = .ok ()) :
    ((linkRecipeIngredient render ch recipeId ingredient).run w).2.rows ch
      = (w.rows ch).addLink (linkRowOf recipeId ingredientId ingredient) := by
  have hmem := mem_linkKeys_iff (w.rows ch) recipeId ingredientId
  have hc : ((w.rows ch).RecipeIngredients.filter fun r =>
      r.recipe_id = recipeId ∧ r.ingredient_id = ingredientId).length = 0 := by
    by_contra hne
    exact hout (hmem.mpr hne)
  revert hok
  rw [run_linkRecipeIngredient, hid]
  dsimp only
  split_ifs with h1 h2
  · intro h
    cases h
  · intro h
    cases h
  · intro _
    simp

theorem linkRecipeIngredient_quiet (render : JsVal → Except String String) (ch : Channel)
    (recipeId : String) (ingredient : JsVal) (w : World) (ingredientId : String)
    (hid : idText render ingredient = .ok ingredientId) (hf : w.faults = []) :
    ((linkRecipeIngredient render ch recipeId ingredient).run w).1 = .ok () := by
  rw [run_linkRecipeIngredient, hid, hf]
  dsimp only
  split_ifs <;> first | rfl | simp_all

theorem linkUserToRecipe_rows (render : JsVal → Except String String) (ch : Channel)
    (userId recipeId : JsVal) (w : World) :
    ((linkUserToRecipe render ch userId recipeId).run w).2.rows ch = w.rows ch
    ∨ ∃ user recipe, jsToString render userId = .ok user
        ∧ jsToString render recipeId = .ok recipe
        ∧ (user, recipe) ∉ (w.rows ch).userKeys
        ∧ ((linkUserToRecipe render ch userId recipeId).run w).1 = .ok ()
        ∧ ((linkUserToRecipe render ch userId recipeId).run w).2.rows ch
            = (w.rows ch).addUserLink ⟨user, recipe⟩ := by
  rw [run_linkUserToRecipe]
  cases hu : jsToString render userId with
  | error e => exact Or.inl rfl
  | ok user =>
    cases hrec : jsToString render recipeId with
    | error e => exact Or.inl rfl
    | ok recipe =>
      have hmem := mem_userKeys_iff (w.rows ch) user recipe
      dsimp only
      split_ifs with h1 h2 h3
      · exact Or.inl (by simp)
      · exact Or.inl (by simp)
      · exact Or.inr ⟨user, recipe, rfl, rfl, fun h => hmem.mp h h2, rfl, by simp⟩
      · exact Or.inl (by simp)

theorem linkUserToRecipe_present (render : JsVal → Except String String) (ch : Channel)
    (userId recipeId : JsVal) (w : World) (user recipe : String)
    (hu : jsToString render userId = .ok user) (hrec : jsToString render recipeId = .ok recipe)
    (hin : (user, recipe) ∈ (w.rows ch).userKeys) :
    ((linkUserToRecipe render ch userId recipeId).run w).2.rows ch = w.rows ch := by
  rcases linkUserToRecipe_rows render ch userId recipeId w with h | ⟨u, r, h1, h2, h3, _, _⟩
  · exact h
  · rw [hu] at h1
    rw [hrec] at h2
    cases h1
    cases h2
    exact absurd hin h3

theorem linkUserToRecipe_absent (render : JsVal → Except String String) (ch : Channel)
    (userId recipeId : JsVal) (w : World) (user recipe : String)
    (hu : jsToString render userId = .ok user) (hrec : jsToString render recipeId = .ok recipe)
    (hout : (user, recipe) ∉ (w.rows ch).userKeys)
    (hok : ((linkUserToRecipe render ch userId recipeId).run w).1 = .ok ()) :
    ((linkUserToRecipe render ch userId recipeId).run w).2.rows ch
      = (w.rows ch).addUserLink ⟨user, recipe⟩ := by
  have hmem := mem_userKeys_iff (w.rows ch) user recipe
  have hc : ((w.rows ch).UserRecipes.filter fun r =>
      r.user_id = user ∧ r.recipe_id = recipe).length = 0 := by
    by_contra hne
    exact hout (hmem.mpr hne)
  revert hok
  rw [run_linkUserToRecipe, hu, hrec]
  dsimp only
  split_ifs with h1 h2
  · intro h
    cases h
  · intro h
    cases h
  · intro _
    simp

theorem linkUserToRecipe_quiet (render : JsVal → Except String String) (ch : Channel)
    (userId recipeId : JsVal) (w : World) (user recipe : String)
    (hu : jsToString render userId = .ok user) (hrec : jsToString render recipeId = .ok recipe)
    (hf : w.faults = []) :
    ((linkUserToRecipe render ch userId recipeId).run w).1 = .ok () := by
  rw [run_linkUserToRecipe, hu, hrec, hf]
  dsimp only
  split_ifs <;> first | rfl | simp_all

theorem linksUnique_addLink (s : Store) (row : RecipeIngredientRow) (h : s.LinksUnique)
    (hout : (row.recipe_id, row.ingredient_id) ∉ s.linkKeys) : (s.addLink row).LinksUnique :=
  ⟨by simpa using nodup_concat_of_not_mem _ _ h.1 hout, by simpa using h.2⟩

theorem linksUnique_addUserLink (s : Store) (row : UserRecipeRow) (h : s.LinksUnique)
    (hout : (row.user_id, row.recipe_id) ∉ s.userKeys) : (s.addUserLink row).LinksUnique :=
  ⟨by simpa using h.1, by simpa using nodup_concat_of_not_mem _ _ h.2 hout⟩

/-- C10: `linkRecipeIngredient` and `linkUserToRecipe` keep the two association
tables free of duplicate keys, whatever the outcome of the call.  When a row
with the full key exists the tables are left exactly as they were (so the stored
amount and unit stay); when none exists a call that succeeds appends exactly
one row, after which the key occurs once; and when storage accepts every
statement the call succeeds. -/
theorem link_keeps_keys_unique (render : JsVal → Except String String) (ch : Channel)
    (w : World) :
    (∀ (recipeId : String) (ingredient : JsVal),
      ((w.rows ch).LinksUnique →
        (((linkRecipeIngredient render ch recipeId ingredient).run w).2.rows ch).LinksUnique)
      ∧ ∀ ingredientId : String, idText render ingredient = .ok ingredientId →
        ((recipeId, ingredientId) ∈ (w.rows ch).linkKeys →
          ((linkRecipeIngredient render ch recipeId ingredient).run w).2.rows ch = w.rows ch)
        ∧ ((recipeId, ingredientId) ∉ (w.rows ch).linkKeys →
            ((linkRecipeIngredient render ch recipeId ingredient).run w).1 = .ok () →
            ((linkRecipeIngredient render ch recipeId ingredient).run w).2.rows ch
                = (w.rows ch).addLink (linkRowOf recipeId ingredientId ingredient)
            ∧ (((linkRecipeIngredient render ch recipeId ingredient).run w).2.rows ch).linkKeys.count
                (recipeId, ingredientId) = 1)
        ∧ (w.faults = [] →
            ((linkRecipeIngredient render ch recipeId ingredient).run w).1 = .ok ()))
    ∧ (∀ (userId recipeId : JsVal),
      ((w.rows ch).LinksUnique →
        (((linkUserToRecipe render ch userId recipeId).run w).2.rows ch).LinksUnique)
      ∧ ∀ user recipe : String, jsToString render userId = .ok user →
        jsToString render recipeId = .ok recipe →
        ((user, recipe) ∈ (w.rows ch).userKeys →
          ((linkUserToRecipe render ch userId recipeId).run w).2.rows ch = w.rows ch)
        ∧ ((user, recipe) ∉ (w.rows ch).userKeys →
            ((linkUserToRecipe render ch userId recipeId).run w).1 = .ok () →
            ((linkUserToRecipe render ch userId recipeId).run w).2.rows ch
                = (w.rows ch).addUserLink ⟨user, recipe⟩
            ∧ (((linkUserToRecipe render ch userId recipeId).run w).2.rows ch).userKeys.count
                (user, recipe) = 1)
        ∧ (w.faults = [] →
            ((linkUserToRecipe render ch userId recipeId).run w).1 = .ok ())) := by
  constructor
  · intro recipeId ingredient
    refine ⟨?_, ?_⟩
    · intro hu
      rcases linkRecipeIngredient_rows render ch recipeId ingredient w with h | ⟨iid, _, h2, _, h4⟩
      · rw [h]
        exact hu
      · rw [h4]
        exact linksUnique_addLink _ _ hu h2
    · intro ingredientId hid
      refine ⟨linkRecipeIngredient_present render ch recipeId ingredient w ingredientId hid, ?_,
        linkRecipeIngredient_quiet render ch recipeId ingredient w ingredientId hid⟩
      intro hout hok
      have hrows := linkRecipeIngredient_absent render ch recipeId ingredient w ingredientId hid
        hout hok
      refine ⟨hrows, ?_⟩
      rw [hrows]
      simpa [linkRowOf] using count_concat_of_not_mem _ _ hout
  · intro userId recipeId
    refine ⟨?_, ?_⟩
    · intro hu
      rcases linkUserToRecipe_rows render ch userId recipeId w with
        h | ⟨user, recipe, _, _, h3, _, h5⟩
      · rw [h]
        exact hu
      · rw [h5]
        exact linksUnique_addUserLink _ _ hu h3
    · intro user recipe hu hrec
      refine ⟨linkUserToRecipe_present render ch userId recipeId w user recipe hu hrec, ?_,
        linkUserToRecipe_quiet render ch userId recipeId w user recipe hu hrec⟩
      intro hout hok
      have hrows := linkUserToRecipe_absent render ch userId recipeId w user recipe hu hrec
        hout hok
      refine ⟨hrows, ?_⟩
      rw [hrows]
      simpa using count_concat_of_not_mem _ _ hout

/-- Linking `A` to ingredient `7` again keeps the stored row; linking the new
user `u2` to `A` appends one row. -/
theorem link_keeps_keys_unique_witness :
    ((linkRecipeIngredient noRender .viaPool "A"
        (.obj [("id", .str "7"), ("amount", .num (.dec 99 0)), ("unit", .str "kg")])).run
      (World.init sharedStore [])).2.rows .viaPool = (World.init sharedStore []).rows .viaPool
    ∧ ((linkUserToRecipe noRender .viaPool (.str "u2") (.str "A")).run
        (World.init sharedStore [])).2.rows .viaPool
      = ((World.init sharedStore []).rows .viaPool).addUserLink ⟨"u2", "A"⟩ :=
  ⟨(((link_keeps_keys_unique noRender .viaPool (World.init sharedStore [])).1 "A"
      (.obj [("id", .str "7"), ("amount", .num (.dec 99 0)), ("unit", .str "kg")])).2 "7" rfl).1
        (by decide),
    ((((link_keeps_keys_unique noRender .viaPool (World.init sharedStore [])).2 (.str "u2")
      (.str "A")).2 "u2" "A" rfl rfl).2.1 (by decide) rfl).1⟩

/-! ## The import -/

theorem Store.Extends.refl (s : Store) : s.Extends s :=
  ⟨rfl, rfl, id, fun _ h => h, id, fun _ h => h⟩

theorem Store.Extends.trans {s t u : Store} (h1 : s.Extends t) (h2 : t.Extends u) :
    s.Extends u :=
  ⟨h2.1.trans h1.1, h2.2.1.trans h1.2.1, fun h => h2.2.2.1 (h1.2.2.1 h),
    fun k h => h2.2.2.2.1 k (h1.2.2.2.1 k h), fun h => h2.2.2.2.2.1 (h1.2.2.2.2.1 h),
    fun k h => h2.2.2.2.2.2 k (h1.2.2.2.2.2 k h)⟩

theorem ingredientKeys_mergeIngredient (s : Store) (row : IngredientRow) :
    (s.mergeIngredient row).ingredientKeys =
      if row.ingredient_id ∈ s.ingredientKeys then s.ingredientKeys
      else s.ingredientKeys ++ [row.ingredient_id] := by
  unfold Store.mergeIngredient
  by_cases h : row.ingredient_id ∈ s.ingredientKeys
  · have hany : (s.Ingredients.any fun r => r.ingredient_id = row.ingredient_id) = true := by
      simp only [Store.ingredientKeys, List.mem_map] at h
      obtain ⟨r, hr, hk⟩ := h
      simp only [List.any_eq_true, decide_eq_true_eq]
      exact ⟨r, hr, hk⟩
    rw [if_pos hany, if_pos h]
    simp only [Store.ingredientKeys, List.map_map]
    apply List.map_congr_left
    intro r _
    by_cases hk : r.ingredient_id = row.ingredient_id <;> simp [hk]
  · have hany : ¬ (s.Ingredients.any fun r => r.ingredient_id = row.ingredient_id) = true := by
      intro hany
      simp only [List.any_eq_true, decide_eq_true_eq] at hany
      obtain ⟨r, hr, hk⟩ := hany
      exact h (by
        simp only [Store.ingredientKeys, List.mem_map]
        exact ⟨r, hr, hk⟩)
    rw [if_neg hany, if_neg h]
    simp [Store.ingredientKeys]

theorem mergeIngredient_frame (s : Store) (row : IngredientRow) :
    (s.mergeIngredient row).Recipes = s.Recipes
    ∧ (s.mergeIngredient row).RecipeIngredients = s.RecipeIngredients
    ∧ (s.mergeIngredient row).UserRecipes = s.UserRecipes := by
  unfold Store.mergeIngredient
  split <;> exact ⟨rfl, rfl, rfl⟩

theorem extends_mergeIngredient (s : Store) (row : IngredientRow) :
    s.Extends (s.mergeIngredient row)
    ∧ row.ingredient_id ∈ (s.mergeIngredient row).ingredientKeys := by
  have hk := ingredientKeys_mergeIngredient s row
  have hf := mergeIngredient_frame s row
  have hl : (s.mergeIngredient row).linkKeys = s.linkKeys := by
    simp [Store.linkKeys, hf.2.1]
  by_cases h : row.ingredient_id ∈ s.ingredientKeys
  · rw [if_pos h] at hk
    exact ⟨⟨hf.1, hf.2.2, fun hn => hk ▸ hn, fun k hm => hk ▸ hm, fun hn => hl ▸ hn,
      fun k hm => hl ▸ hm⟩, hk ▸ h⟩
  · rw [if_neg h] at hk
    refine ⟨⟨hf.1, hf.2.2, fun hn => ?_, fun k hm => ?_, fun hn => hl ▸ hn,
      fun k hm => hl ▸ hm⟩, ?_⟩
    · rw [hk]
      exact nodup_concat_of_not_mem _ _ hn h
    · rw [hk]
      exact List.mem_append_left _ hm
    · rw [hk]
      simp

theorem extends_addLink (s : Store) (row : RecipeIngredientRow)
    (hout : (row.recipe_id, row.ingredient_id) ∉ s.linkKeys) :
    s.Extends (s.addLink row) := by
  refine ⟨rfl, rfl, id, fun _ h => h, fun hn => ?_, fun k hm => ?_⟩
  · rw [linkKeys_addLink]
    exact nodup_concat_of_not_mem _ _ hn hout
  · rw [linkKeys_addLink]
    exact List.mem_append_left _ hm

theorem extends_insertOrUpdateIngredient (render : JsVal → Except String String) (ch : Channel)
    (ingredient : JsVal) (w : World) :
    (w.rows ch).Extends (((insertOrUpdateIngredient render ch ingredient).run w).2.rows ch)
    ∧ (((insertOrUpdateIngredient render ch ingredient).run w).1 = .ok () →
        ∃ id, idText render ingredient = .ok id
          ∧ id ∈ (((insertOrUpdateIngredient render ch ingredient).run w).2.rows ch).ingredientKeys) := by
  rw [run_insertOrUpdateIngredient]
  cases hid : idText render ingredient with
  | error e => exact ⟨Store.Extends.refl _, fun h => by cases h⟩
  | ok id =>
    dsimp only
    split_ifs with h1
    · exact ⟨by simpa using Store.Extends.refl _, fun h => by cases h⟩
    · have := extends_mergeIngredient (w.rows ch) (ingredientRowOf id ingredient)
      exact ⟨by simpa using this.1, fun _ => ⟨id, rfl, by simpa using this.2⟩⟩

theorem extends_linkRecipeIngredient (render : JsVal → Except String String) (ch : Channel)
    (recipeId : String) (ingredient : JsVal) (w : World) :
    (w.rows ch).Extends (((linkRecipeIngredient render ch recipeId ingredient).run w).2.rows ch)
    ∧ (((linkRecipeIngredient render ch recipeId ingredient).run w).1 = .ok () →
        ∃ id, idText render ingredient = .ok id
          ∧ (recipeId, id) ∈
            (((linkRecipeIngredient render ch recipeId ingredient).run w).2.rows ch).linkKeys) := by
  rw [run_linkRecipeIngredient]
  cases hid : idText render ingredient with
  | error e => exact ⟨Store.Extends.refl _, fun h => by cases h⟩
  | ok id =>
    have hmem := mem_linkKeys_iff (w.rows ch) recipeId id
    dsimp only
    split_ifs with h1 h2 h3
    · exact ⟨by simpa using Store.Extends.refl _, fun h => by cases h⟩
    · exact ⟨by simpa using Store.Extends.refl _, fun h => by cases h⟩
    · have hout : (recipeId, id) ∉ (w.rows ch).linkKeys := fun h => hmem.mp h h2
      exact ⟨by simpa using extends_addLink (w.rows ch) (linkRowOf recipeId id ingredient) hout,
        fun _ => ⟨id, rfl, by simp [linkRowOf]⟩⟩
    · exact ⟨by simpa using Store.Extends.refl _, fun _ => ⟨id, rfl, by simpa using hmem.mpr h2⟩⟩

section BindLemmas
variable {α β : Type}

theorem run_bind_of_ok {j : Job α} {f : α → Job β} {w : World} {a : α}
    (h : (j.run w).1 = .ok a) : (j >>= f).run w = (f a).run (j.run w).2 := by
  rw [run_bind, h]

theorem run_bind_of_error {j : Job α} {f : α → Job β} {w : World} {e : String}
    (h : (j.run w).1 = .error e) : (j >>= f).run w = (.error e, (j.run w).2) := by
  rw [run_bind, h]

theorem run_bind_ok {j : Job α} {f : α → Job β} {w : World} {b : β}
    (h : ((j >>= f).run w).1 = .ok b) :
    ∃ a, (j.run w).1 = .ok a ∧ (j >>= f).run w = (f a).run (j.run w).2 := by
  cases hj : (j.run w).1 with
  | error e =>
    rw [run_bind_of_error hj] at h
    cases h
  | ok a => exact ⟨a, rfl, run_bind_of_ok hj⟩

end BindLemmas

theorem run_forM_nil (f : JsVal → Job Unit) (w : World) :
    (([] : List JsVal).forM f).run w = (.ok (), w) := rfl

theorem run_forM_cons (f : JsVal → Job Unit) (item : JsVal) (rest : List JsVal) (w : World) :
    ((item :: rest).forM f).run w = (f item >>= fun _ => rest.forM f).run w := rfl

theorem extends_insertRecipeIngredient (render : JsVal → Except String String) (ch : Channel)
    (recipe ingredient : JsVal) (w : World) :
    (w.rows ch).Extends (((insertRecipeIngredient render ch recipe ingredient).run w).2.rows ch)
    ∧ (((insertRecipeIngredient render ch recipe ingredient).run w).1 = .ok () →
        ∃ recipeId id, idText render recipe = .ok recipeId ∧ idText render ingredient = .ok id
          ∧ id ∈ (((insertRecipeIngredient render ch recipe ingredient).run w).2.rows
              ch).ingredientKeys
          ∧ (recipeId, id) ∈ (((insertRecipeIngredient render ch recipe ingredient).run w).2.rows
              ch).linkKeys) := by
  unfold insertRecipeIngredient
  have hm := extends_insertOrUpdateIngredient render ch ingredient w
  cases h1 : ((insertOrUpdateIngredient render ch ingredient).run w).1 with
  | error e =>
    rw [run_bind_of_error h1]
    exact ⟨hm.1, fun h => by cases h⟩
  | ok u =>
    rw [run_bind_of_ok h1]
    obtain ⟨id, hid, hidmem⟩ := hm.2 h1
    cases hrid : idText render recipe with
    | error e =>
      rw [run_bind_of_error (by rw [run_ofExcept])]
      rw [run_ofExcept]
      exact ⟨hm.1, fun h => by cases h⟩
    | ok recipeId =>
      rw [run_bind_of_ok (by rw [run_ofExcept]), run_ofExcept]
      dsimp only
      have hl := extends_linkRecipeIngredient render ch recipeId ingredient
        ((insertOrUpdateIngredient render ch ingredient).run w).2
      refine ⟨hm.1.trans hl.1, fun hok => ?_⟩
      obtain ⟨id2, hid2, hmem2⟩ := hl.2 hok
      rw [hid] at hid2
      cases hid2
      exact ⟨recipeId, id, rfl, hid, hl.1.2.2.2.1 id hidmem, hmem2⟩

theorem extends_forM (render : JsVal → Except String String) (ch : Channel) (recipe : JsVal)
    (items : List JsVal) (w : World) :
    (w.rows ch).Extends
      (((items.forM (insertRecipeIngredient render ch recipe)).run w).2.rows ch)
    ∧ (((items.forM (insertRecipeIngredient render ch recipe)).run w).1 = .ok () →
        ∀ item ∈ items, ∃ recipeId id, idText render recipe = .ok recipeId
          ∧ idText render item = .ok id
          ∧ id ∈ (((items.forM (insertRecipeIngredient render ch recipe)).run w).2.rows
              ch).ingredientKeys
          ∧ (recipeId, id) ∈ (((items.forM (insertRecipeIngredient render ch recipe)).run w).2.rows
              ch).linkKeys) := by
  induction items generalizing w with
  | nil =>
    rw [run_forM_nil]
    exact ⟨Store.Extends.refl _, fun _ item hitem => by cases hitem⟩
  | cons first rest ih =>
    rw [run_forM_cons]
    have hs := extends_insertRecipeIngredient render ch recipe first w
    cases h1 : ((insertRecipeIngredient render ch recipe first).run w).1 with
    | error e =>
      rw [run_bind_of_error h1]
      exact ⟨hs.1, fun h => by cases h⟩
    | ok u =>
      rw [run_bind_of_ok h1]
      have hr := ih ((insertRecipeIngredient render ch recipe first).run w).2
      refine ⟨hs.1.trans hr.1, fun hok item hitem => ?_⟩
      rcases List.mem_cons.mp hitem with rfl | hin
      · obtain ⟨recipeId, id, h2, h3, h4, h5⟩ := hs.2 h1
        exact ⟨recipeId, id, h2, h3, hr.1.2.2.2.1 id h4, hr.1.2.2.2.2.2 _ h5⟩
      · exact hr.2 hok item hin

theorem extends_insertRecipeIngredients (render : JsVal → Except String String) (ch : Channel)
    (recipe : JsVal) (w : World) :
    (w.rows ch).Extends (((insertRecipeIngredients render ch recipe).run w).2.rows ch)
    ∧ (((insertRecipeIngredients render ch recipe).run w).1 = .ok () →
        ∃ items, (getProp recipe "extendedIngredients" >>= iterate) = .ok items
          ∧ ∀ item ∈ items, ∃ recipeId id, idText render recipe = .ok recipeId
            ∧ idText render item = .ok id
            ∧ id ∈ (((insertRecipeIngredients render ch recipe).run w).2.rows ch).ingredientKeys
            ∧ (recipeId, id) ∈
              (((insertRecipeIngredients render ch recipe).run w).2.rows ch).linkKeys) := by
  unfold insertRecipeIngredients
  cases hit : (getProp recipe "extendedIngredients" >>= iterate) with
  | error e =>
    rw [run_bind_of_error (by rw [run_ofExcept])]
    rw [run_ofExcept]
    exact ⟨Store.Extends.refl _, fun h => by cases h⟩
  | ok items =>
    rw [run_bind_of_ok (by rw [run_ofExcept]), run_ofExcept]
    dsimp only
    have := extends_forM render ch recipe items w
    exact ⟨this.1, fun hok => ⟨items, rfl, this.2 hok⟩⟩

section FrameLemmas
variable {α β : Type}

theorem keepsDb_bind {j : Job α} {f : α → Job β} (hj : j.KeepsDb) (hf : ∀ a, (f a).KeepsDb) :
    (j >>= f).KeepsDb := by
  intro w
  rw [run_bind]
  cases h : (j.run w).1 with
  | error e => exact hj w
  | ok a => exact (hf a _).trans (hj w)

theorem failsClean_bind {j : Job α} {f : α → Job β} (hj : j.KeepsDb)
    (hf : ∀ a, (f a).FailsClean) : (j >>= f).FailsClean := by
  intro w e
  rw [run_bind]
  cases h : (j.run w).1 with
  | error e1 =>
    intro _
    exact hj w
  | ok a =>
    intro he
    exact (hf a _ e he).trans (hj w)

theorem keepsDb_ofExcept (x : Except String α) : (Job.ofExcept x).KeepsDb := by
  intro w
  rw [run_ofExcept]

end FrameLemmas

theorem keepsDb_begin : begin.KeepsDb := fun _ => rfl

theorem failsClean_commit : commit.FailsClean := by
  intro w e
  rw [run_commit]
  split_ifs
  · intro _
    rfl
  · intro h
    cases h

theorem keepsDb_insertRecipeDetails (render : JsVal → Except String String) (recipe : JsVal) :
    (insertRecipeDetails render .viaTransaction recipe).KeepsDb := by
  intro w
  rw [run_insertRecipeDetails]
  cases idText render recipe with
  | error e => rfl
  | ok idString =>
    dsimp only
    split_ifs <;> simp

theorem keepsDb_insertOrUpdateIngredient (render : JsVal → Except String String)
    (ingredient : JsVal) : (insertOrUpdateIngredient render .viaTransaction ingredient).KeepsDb := by
  intro w
  rw [run_insertOrUpdateIngredient]
  cases idText render ingredient with
  | error e => rfl
  | ok id =>
    dsimp only
    split_ifs <;> simp

theorem keepsDb_linkRecipeIngredient (render : JsVal → Except String String) (recipeId : String)
    (ingredient : JsVal) :
    (linkRecipeIngredient render .viaTransaction recipeId ingredient).KeepsDb := by
  intro w
  rw [run_linkRecipeIngredient]
  cases idText render ingredient with
  | error e => rfl
  | ok id =>
    dsimp only
    split_ifs <;> simp

theorem keepsDb_linkUserToRecipe (render : JsVal → Except String String) (userId recipeId : JsVal) :
    (linkUserToRecipe render .viaTransaction userId recipeId).KeepsDb := by
  intro w
  rw [run_linkUserToRecipe]
  cases jsToString render userId with
  | error e => rfl
  | ok user =>
    cases jsToString render recipeId with
    | error e => rfl
    | ok recipe =>
      dsimp only
      split_ifs <;> simp

theorem keepsDb_insertRecipeIngredient (render : JsVal → Except String String)
    (recipe ingredient : JsVal) :
    (insertRecipeIngredient render .viaTransaction recipe ingredient).KeepsDb := by
  unfold insertRecipeIngredient
  exact keepsDb_bind (keepsDb_insertOrUpdateIngredient render ingredient) fun _ =>
    keepsDb_bind (keepsDb_ofExcept _) fun recipeId =>
      keepsDb_linkRecipeIngredient render recipeId ingredient

theorem keepsDb_forM (render : JsVal → Except String String) (recipe : JsVal)
    (items : List JsVal) :
    (items.forM (insertRecipeIngredient render .viaTransaction recipe)).KeepsDb := by
  induction items with
  | nil => exact fun _ => rfl
  | cons first rest ih =>
    intro w
    rw [run_forM_cons]
    exact keepsDb_bind (keepsDb_insertRecipeIngredient render recipe first) (fun _ => ih) w

theorem keepsDb_insertRecipeIngredients (render : JsVal → Except String String)
    (recipe : JsVal) : (insertRecipeIngredients render .viaTransaction recipe).KeepsDb := by
  unfold insertRecipeIngredients
  exact keepsDb_bind (keepsDb_ofExcept _) fun items => keepsDb_forM render recipe items

/-- The `try` block of `insertRecipe`. -/
theorem insertRecipe_eq (render : JsVal → Except String String) (recipe userId : JsVal) :
    insertRecipe render recipe userId =
      tryCatch
        (begin >>= fun _ =>
          insertRecipeDetails render .viaTransaction recipe >>= fun _ =>
          insertRecipeIngredients render .viaTransaction recipe >>= fun _ =>
          Job.ofExcept (getProp recipe "id") >>= fun recipeId =>
          linkUserToRecipe render .viaTransaction userId recipeId >>= fun _ => commit)
        (fun err => rollback >>= fun _ => throw err) := rfl

theorem failsClean_insertRecipe_body (render : JsVal → Except String String)
    (recipe userId : JsVal) :
    (begin >>= fun _ =>
      insertRecipeDetails render .viaTransaction recipe >>= fun _ =>
      insertRecipeIngredients render .viaTransaction recipe >>= fun _ =>
      Job.ofExcept (getProp recipe "id") >>= fun recipeId =>
      linkUserToRecipe render .viaTransaction userId recipeId >>= fun _ => commit).FailsClean :=
  failsClean_bind keepsDb_begin fun _ =>
    failsClean_bind (keepsDb_insertRecipeDetails render recipe) fun _ =>
      failsClean_bind (keepsDb_insertRecipeIngredients render recipe) fun _ =>
        failsClean_bind (keepsDb_ofExcept _) fun recipeId =>
          failsClean_bind (keepsDb_linkUserToRecipe render userId recipeId) fun _ =>
            failsClean_commit

theorem insertRecipe_error (render : JsVal → Except String String) (recipe userId : JsVal)
    (w : World) (e : String) (h : ((insertRecipe render recipe userId).run w).1 = .error e) :
    ((insertRecipe render recipe userId).run w).2.db = w.db
    ∧ ((insertRecipe render recipe userId).run w).2.tx = w.db := by
  revert h
  rw [insertRecipe_eq, run_tryCatch]
  have hclean := failsClean_insertRecipe_body render recipe userId w
  generalize (begin >>= fun _ =>
      insertRecipeDetails render .viaTransaction recipe >>= fun _ =>
      insertRecipeIngredients render .viaTransaction recipe >>= fun _ =>
      Job.ofExcept (getProp recipe "id") >>= fun recipeId =>
      linkUserToRecipe render .viaTransaction userId recipeId >>= fun _ => commit).run w = r
    at hclean ⊢
  obtain ⟨res, w1⟩ := r
  cases res with
  | ok a =>
    intro h
    cases h
  | error e1 =>
    intro _
    have := hclean e1 rfl
    simp only [run_bind, run_rollback, run_throw]
    exact ⟨this, this⟩

theorem insertRecipeDetails_ok (render : JsVal → Except String String) (ch : Channel)
    (recipe : JsVal) (w : World)
    (h : ((insertRecipeDetails render ch recipe).run w).1 = .ok ()) :
    ∃ recipeId, idText render recipe = .ok recipeId
      ∧ ((w.rows ch).Recipes.filter fun r => r.id = recipeId) = []
      ∧ ((insertRecipeDetails render ch recipe).run w).2.rows ch
          = (w.rows ch).addRecipe (recipeRowOf recipeId recipe) := by
  revert h
  rw [run_insertRecipeDetails]
  cases hid : idText render recipe with
  | error e =>
    intro h
    cases h
  | ok recipeId =>
    dsimp only
    split_ifs with h1 h2 h3
    · intro h
      cases h
    · intro h
      cases h
    · intro h
      cases h
    · intro _
      refine ⟨recipeId, rfl, ?_, by simp⟩
      rw [← List.length_eq_zero]
      omega

theorem insertRecipeDetails_existing (render : JsVal → Except String String) (ch : Channel)
    (recipe : JsVal) (w : World) (recipeId : String) (hid : idText render recipe = .ok recipeId)
    (hrow : ∃ r ∈ (w.rows ch).Recipes, r.id = recipeId) :
    (((insertRecipeDetails render ch recipe).run w).1 = .error "storage: statement refused"
      ∨ ((insertRecipeDetails render ch recipe).run w).1 = .error "Title must be a string")
    ∧ ((insertRecipeDetails render ch recipe).run w).2.rows ch = w.rows ch := by
  have hlen : ((w.rows ch).Recipes.filter fun r => r.id = recipeId).length > 0 := by
    obtain ⟨r, hr, hk⟩ := hrow
    apply List.length_pos_of_mem (a := r)
    simp [List.mem_filter, hr, hk]
  rw [run_insertRecipeDetails, hid]
  dsimp only
  split_ifs with h1
  · exact ⟨Or.inl rfl, by simp⟩
  · exact ⟨Or.inr rfl, by simp⟩

theorem linkUserToRecipe_ok (render : JsVal → Except String String) (ch : Channel)
    (userId recipeId : JsVal) (w : World)
    (h : ((linkUserToRecipe render ch userId recipeId).run w).1 = .ok ()) :
    ∃ user recipe, jsToString render userId = .ok user ∧ jsToString render recipeId = .ok recipe
      ∧ (((linkUserToRecipe render ch userId recipeId).run w).2.rows ch = w.rows ch
        ∨ ((user, recipe) ∉ (w.rows ch).userKeys
          ∧ ((linkUserToRecipe render ch userId recipeId).run w).2.rows ch
              = (w.rows ch).addUserLink ⟨user, recipe⟩))
      ∧ (user, recipe) ∈ (((linkUserToRecipe render ch userId recipeId).run w).2.rows ch).userKeys := by
  revert h
  rw [run_linkUserToRecipe]
  cases hu : jsToString render userId with
  | error e =>
    intro h
    cases h
  | ok user =>
    cases hrec : jsToString render recipeId with
    | error e =>
      intro h
      cases h
    | ok recipe =>
      have hmem := mem_userKeys_iff (w.rows ch) user recipe
      dsimp only
      split_ifs with h1 h2 h3
      · intro h
        cases h
      · intro h
        cases h
      · intro _
        exact ⟨user, recipe, rfl, rfl, Or.inr ⟨fun hin => hmem.mp hin h2, by simp⟩, by simp⟩
      · intro _
        exact ⟨user, recipe, rfl, rfl, Or.inl (by simp), by simpa using hmem.mpr h2⟩

theorem idText_of_getProp {render : JsVal → Except String String} {recipe value : JsVal}
    (h : getProp recipe "id" = .ok value) : idText render recipe = jsToString render value := by
  simp [idText, h, bind, Except.bind]

/-- What a successful import has done, seen from the committed tables: `t` is
the state of the transaction before the user link. -/
theorem insertRecipe_ok (render : JsVal → Except String String) (recipe userId : JsVal)
    (w : World) (h : ((insertRecipe render recipe userId).run w).1 = .ok ()) :
    ∃ (recipeId user : String) (items : List JsVal) (t : Store),
      idText render recipe = .ok recipeId
      ∧ jsToString render userId = .ok user
      ∧ (getProp recipe "extendedIngredients" >>= iterate) = .ok items
      ∧ (w.db.Recipes.filter fun r => r.id = recipeId) = []
      ∧ (w.db.addRecipe (recipeRowOf recipeId recipe)).Extends t
      ∧ (∀ item ∈ items, ∃ id, idText render item = .ok id ∧ id ∈ t.ingredientKeys
          ∧ (recipeId, id) ∈ t.linkKeys)
      ∧ (((insertRecipe render recipe userId).run w).2.db = t
        ∨ ((user, recipeId) ∉ t.userKeys
          ∧ ((insertRecipe render recipe userId).run w).2.db = t.addUserLink ⟨user, recipeId⟩))
      ∧ (user, recipeId) ∈ ((insertRecipe render recipe userId).run w).2.db.userKeys := by
  revert h
  rw [insertRecipe_eq, run_tryCatch]
  cases hbody : ((begin >>= fun _ =>
      insertRecipeDetails render .viaTransaction recipe >>= fun _ =>
      insertRecipeIngredients render .viaTransaction recipe >>= fun _ =>
      Job.ofExcept (getProp recipe "id") >>= fun recipeId =>
      linkUserToRecipe render .viaTransaction userId recipeId >>= fun _ => commit).run w).1 with
  | error e =>
    simp only [run_bind, run_rollback, run_throw]
    intro h
    cases h
  | ok u =>
    intro _
    dsimp only
    obtain ⟨_, h0, e0⟩ := run_bind_ok hbody
    rw [e0] at hbody ⊢
    rw [run_begin] at hbody ⊢
    dsimp only at hbody ⊢
    obtain ⟨_, h1, e1⟩ := run_bind_ok hbody
    rw [e1] at hbody ⊢
    obtain ⟨recipeId, hid, hfresh, hrows1⟩ :=
      insertRecipeDetails_ok render .viaTransaction recipe _ h1
    obtain ⟨_, h2, e2⟩ := run_bind_ok hbody
    rw [e2] at hbody ⊢
    have hloop := extends_insertRecipeIngredients render .viaTransaction recipe
      ((insertRecipeDetails render .viaTransaction recipe).run { w with tx := w.db }).2
    obtain ⟨items, hitems, hall⟩ := hloop.2 h2
    obtain ⟨value, h3, e3⟩ := run_bind_ok hbody
    rw [e3] at hbody ⊢
    rw [run_ofExcept] at h3 hbody ⊢
    dsimp only at h3 hbody ⊢
    obtain ⟨_, h4, e4⟩ := run_bind_ok hbody
    rw [e4] at hbody ⊢
    obtain ⟨user, recipeId2, huser, hrec2, hrows4, hmem4⟩ :=
      linkUserToRecipe_ok render .viaTransaction userId value _ h4
    have hsame : recipeId2 = recipeId := by
      have hid2 := hid
      rw [idText_of_getProp h3, hrec2] at hid2
      cases hid2
      rfl
    subst hsame
    revert hbody
    rw [run_commit]
    split_ifs with hc
    · intro h
      cases h
    · intro _
      dsimp only [World.rows] at hrows1 hloop hall hrows4 hmem4 ⊢
      rw [hrows1] at hloop
      refine ⟨recipeId2, user, items, _, hid, huser, hitems, hfresh, hloop.1, ?_, hrows4, hmem4⟩
      intro item hitem
      obtain ⟨rid, id, hr, hi, hm1, hm2⟩ := hall item hitem
      rw [hid] at hr
      cases hr
      exact ⟨id, hi, hm1, hm2⟩

theorem count_eq_one_of_nodup {κ : Type} [BEq κ] [LawfulBEq κ] (keys : List κ) (k : κ)
    (hn : keys.Nodup) (hk : k ∈ keys) : keys.count k = 1 := by
  induction keys with
  | nil => cases hk
  | cons a rest ih =>
    rw [List.nodup_cons] at hn
    rw [List.count_cons]
    rcases List.mem_cons.mp hk with rfl | hin
    · simp [List.count_eq_zero_of_not_mem hn.1]
    · have hne : ¬ a = k := fun h => hn.1 (h ▸ hin)
      simp [ih hn.2 hin, hne]

theorem not_mem_recipeKeys_of_filter (s : Store) (recipeId : String)
    (h : (s.Recipes.filter fun r => r.id = recipeId) = []) : recipeId ∉ s.recipeKeys := by
  intro hin
  simp only [Store.recipeKeys, List.mem_map] at hin
  obtain ⟨r, hr, hk⟩ := hin
  have : r ∈ s.Recipes.filter fun r => r.id = recipeId := by
    simp [List.mem_filter, hr, hk]
  rw [h] at this
  cases this

theorem insertRecipe_again (render : JsVal → Except String String) (recipe userId : JsVal)
    (db : Store) (faults1 faults2 : List Bool)
    (h1 : ((insertRecipe render recipe userId).run (World.init db faults1)).1 = .ok ()) :
    ((insertRecipe render recipe userId).run
        (World.init ((insertRecipe render recipe userId).run (World.init db faults1)).2.db
          faults2)).2.db
      = ((insertRecipe render recipe userId).run (World.init db faults1)).2.db := by
  cases h2 : ((insertRecipe render recipe userId).run
      (World.init ((insertRecipe render recipe userId).run (World.init db faults1)).2.db
        faults2)).1 with
  | error e => exact (insertRecipe_error render recipe userId _ e h2).1
  | ok u2 =>
    exfalso
    obtain ⟨recipeId, _, _, t, hid, _, _, _, hext, _, hfinal, _⟩ :=
      insertRecipe_ok render recipe userId (World.init db faults1) h1
    obtain ⟨recipeId2, _, _, _, hid2, _, _, hfresh2, _⟩ :=
      insertRecipe_ok render recipe userId _ h2
    rw [hid] at hid2
    cases hid2
    have hrec : ((insertRecipe render recipe userId).run (World.init db faults1)).2.db.Recipes
        = db.Recipes ++ [recipeRowOf recipeId recipe] := by
      rcases hfinal with hf | ⟨_, hf⟩
      · rw [hf, hext.1]
        rfl
      · rw [hf]
        exact hext.1
    have hrow : recipeRowOf recipeId recipe ∈
        (((insertRecipe render recipe userId).run (World.init db faults1)).2.db.Recipes.filter
          fun r => r.id = recipeId) := by
      rw [hrec]
      simp [List.mem_filter, recipeRowOf]
    have hfresh3 :
        (((insertRecipe render recipe userId).run (World.init db faults1)).2.db.Recipes.filter
          fun r => r.id = recipeId) = [] := hfresh2
    rw [hfresh3] at hrow
    cases hrow

/-- C1: importing the same payload for the same user a second time leaves the
four tables exactly as the first import left them (storage accepting every
statement): no table gains or changes a row.  And once an import has succeeded,
a repeated import leaves the tables as they are whatever storage does. -/
theorem insertRecipe_idempotent (render : JsVal → Except String String) (recipe userId : JsVal)
    (db : Store) :
    ((insertRecipe render recipe userId).run
        (World.init ((insertRecipe render recipe userId).run (World.init db [])).2.db [])).2.db
      = ((insertRecipe render recipe userId).run (World.init db [])).2.db
    ∧ ∀ faults1 faults2 : List Bool,
        ((insertRecipe render recipe userId).run (World.init db faults1)).1 = .ok () →
        ((insertRecipe render recipe userId).run
            (World.init ((insertRecipe render recipe userId).run (World.init db faults1)).2.db
              faults2)).2.db
          = ((insertRecipe render recipe userId).run (World.init db faults1)).2.db := by
  refine ⟨?_, fun faults1 faults2 h1 => insertRecipe_again render recipe userId db faults1 faults2 h1⟩
  cases h1 : ((insertRecipe render recipe userId).run (World.init db [])).1 with
  | error e =>
    have hdb : ((insertRecipe render recipe userId).run (World.init db [])).2.db = db :=
      (insertRecipe_error render recipe userId (World.init db []) e h1).1
    rw [hdb, hdb]
  | ok u => exact insertRecipe_again render recipe userId db [] [] h1

/-- The example of the specification, twice: the second import of `soup` for
`u1` changes nothing. -/
theorem insertRecipe_idempotent_witness :
    ((insertRecipe noRender soup (.str "u1")).run
        (World.init ((insertRecipe noRender soup (.str "u1")).run
          (World.init Store.empty [])).2.db [])).2.db
      = ((insertRecipe noRender soup (.str "u1")).run (World.init Store.empty [])).2.db
    ∧ ((insertRecipe noRender soup (.str "u1")).run (World.init Store.empty [])).2.db = soupStore :=
  ⟨(insertRecipe_idempotent noRender soup (.str "u1") Store.empty).1, rfl⟩

/-- C3 (the code at a store that holds the recipe): `insertRecipeDetails` never
completes there.  Unless storage refuses the lookup, it throws
`Title must be a string`, raised by the validator on the connection object that
`updateRecipeDetails` received in place of the payload; the tables keep the old
row and none of the payload values is written. -/
theorem insertRecipeDetails_existing_throws (render : JsVal → Except String String)
    (ch : Channel) (recipe : JsVal) (w : World) (recipeId : String)
    (hid : idText render recipe = .ok recipeId)
    (hrow : ∃ r ∈ (w.rows ch).Recipes, r.id = recipeId) :
    (((insertRecipeDetails render ch recipe).run w).1 = .error "storage: statement refused"
      ∨ ((insertRecipeDetails render ch recipe).run w).1 = .error "Title must be a string")
    ∧ ((insertRecipeDetails render ch recipe).run w).2.rows ch = w.rows ch :=
  insertRecipeDetails_existing render ch recipe w recipeId hid hrow

/-- The store holds recipe `42`; the upsert of a new payload for `42` throws and
the row keeps its values. -/
theorem insertRecipeDetails_existing_throws_witness :
    ((insertRecipeDetails noRender .viaTransaction soupRetitled).run (World.init soupStore [])).1
      = .error "Title must be a string"
    ∧ ((insertRecipeDetails noRender .viaTransaction soupRetitled).run
        (World.init soupStore [])).2.rows .viaTransaction = soupStore :=
  ⟨rfl,
    (insertRecipeDetails_existing_throws noRender .viaTransaction soupRetitled
      (World.init soupStore []) "42" rfl ⟨_, List.mem_singleton.mpr rfl, rfl⟩).2⟩

end Recipe
